import Mathlib

/-!
# Shadertoy renderer: texture cache, pipeline initialisation and per-frame render

A shallow embedding of `app.go` (the multi-pass variant) and of the shader
and channel reload of `appimpl.go` (the single-shader variant, whose
definitions are in `Impl`).

Conventions of the embedding:

* a Go `error` is an `Option String`: `none` is `nil`, `some msg` is an error
  whose `Error()` text is `msg`;
* a nilable pointer (`*BufferConf`, `*CommonConf`) is an `Option`;
* the graphics library is a log of the calls made to it (`State.calls`, oldest
  first) together with counters that hand out fresh object names;
* everything the program reads from outside (files, the shader compiler's
  verdict, uniform locations) is an oracle in `Env`; the window and clock
  readings of one `render` call are an `Input`;
* `float32` arguments of library calls are kept symbolic (`F32`), so no
  rounding is modelled.
-/

namespace Shadertoy

/-- A Go `error`: `none` is `nil`. -/
abbrev Err := Option String

/-- The two shader kinds passed to `compileShader`. -/
inductive ShaderKind
  | VERTEX_SHADER
  | FRAGMENT_SHADER
  deriving DecidableEq, Repr

/-- A `float32` argument of a library call, kept as the expression that
computes it. -/
inductive F32
  /-- Conversion `float32(i)` of an integer, also an integer constant. -/
  | ofInt (i : Int)
  /-- Conversion `float32(x)` of a `float64`. -/
  | ofF64 (x : ℚ)
  /-- The quotient `float32(ms) / 1000.0`. -/
  | msDiv1000 (ms : Int)
  deriving DecidableEq

/-! ## Constants of the graphics library (values of the OpenGL registry) -/

def GL_NEAREST : Int := 0x2600
def GL_LINEAR : Int := 0x2601
def GL_MIPMAP : Int := 0x8293
def GL_REPEAT : Int := 0x2901
def GL_CLAMP_TO_EDGE : Int := 0x812F
def GL_TEXTURE_MAG_FILTER : Int := 0x2800
def GL_TEXTURE_MIN_FILTER : Int := 0x2801
def GL_TEXTURE_WRAP_S : Int := 0x2802
def GL_TEXTURE_WRAP_T : Int := 0x2803

/-- The calls to the graphics library that the program makes, with their
arguments; a call that returns a fresh object name carries that name. -/
inductive GLCall
  | CreateTextures (tex : Nat)
  | GenTextures (tex : Nat)
  | ActiveTexture0
  | BindTexture (tex : Nat)
  | TexImage2D (width height : Nat)
  | CreateShader (kind : ShaderKind) (shader : Nat)
  | ShaderSource (shader : Nat) (source : String)
  | CompileShader (shader : Nat)
  | GetShaderInfoLog (shader : Nat)
  | CreateProgram (program : Nat)
  | AttachShader (program shader : Nat)
  | LinkProgram (program : Nat)
  | GetProgramInfoLog (program : Nat)
  | DeleteShader (shader : Nat)
  | CreateFramebuffers (fbo : Nat)
  | NamedFramebufferTexture (fbo tex : Nat)
  | BindFramebuffer (fbo : Nat)
  | TextureImage2DEXT (tex : Nat) (width height : Int)
  | Clear
  | UseProgram (program : Nat)
  | GetUniformLocation (program : Nat) (name : String)
  | Uniform3f (loc : Int) (v0 v1 v2 : F32)
  | Uniform1f (loc : Int) (v0 : F32)
  | Uniform4f (loc : Int) (v0 v1 v2 v3 : F32)
  | TextureParameteri (tex : Nat) (pname : Int) (param : Int)
  | BindTextureUnit (unit : Nat) (tex : Nat)
  | BindVertexArray (vao : Nat)
  | DrawElements
  | TexParameteri (pname : Int) (param : Int)
  | DeleteTextures (textures : List Nat)
  deriving DecidableEq

/-- What `os.Open` followed by `image.Decode` finds at a path. -/
inductive ImageFile
  /-- The file cannot be opened; `reason` is the text of the underlying
  system error. -/
  | missing (reason : String)
  /-- The file opens and `image.Decode` fails with this message. -/
  | undecodable (msg : String)
  /-- The file decodes to an image of this size. -/
  | image (width height : Nat)
  deriving DecidableEq

/-- Everything the program reads from outside itself. -/
structure Env where
  /-- Outcome of `os.Open` and `image.Decode` on a path. -/
  openImage : String → ImageFile
  /-- Outcome of `ioutil.ReadFile`: the content, or the error text. -/
  readFile : String → Except String String
  /-- The `%q` verb of `fmt` (a Go-quoted string). -/
  quote : String → String
  /-- The compiler's verdict on a source: `none` when it compiles, else the
  info log. -/
  compileLog : ShaderKind → String → Option String
  /-- The linker's verdict on a vertex and a fragment source: `none` when
  the program links, else the info log. -/
  linkLog : String → String → Option String
  /-- Result of `gl.GetUniformLocation`. -/
  uniformLocation : Nat → String → Int

/-- The mutable state: the texture cache of `DefaultTextureMgr()`, the
counters for fresh object names and the log of library calls. -/
structure State where
  /-- The map `TextureMgr.textures`; the first pair with a key is its entry. -/
  textures : List (String × Nat)
  nextTex : Nat
  nextObj : Nat
  nextFbo : Nat
  /-- Library calls made so far, oldest first. -/
  calls : List GLCall
  deriving DecidableEq

/-- Record one library call. -/
def State.emit (s : State) (c : GLCall) : State :=
  { s with calls := s.calls ++ [c] }

/-- Text of the `*PathError` that `os.Open` returns: `Op + " " + Path + ": " +
Err.Error()` with `Op = "open"`. -/
def osOpenError (file reason : String) : String :=
  "open " ++ file ++ ": " ++ reason

/-- `newTextureEx` of `app.go`. -/
def newTextureEx (env : Env) (file : String) (s : State) : (Nat × Err) × State :=
  match env.openImage file with
  | .missing reason =>
    ((0, some ("texture " ++ env.quote file ++ " not found on disk: "
        ++ osOpenError file reason)), s)
  | .undecodable msg => ((0, some msg), s)
  | .image width height =>
    -- `image.NewRGBA` sets `Stride` to four times the width
    let stride := 4 * width
    if stride ≠ width * 4 then
      ((0, some "unsupported stride"), s)
    else
      let texture := s.nextTex
      let s1 := { s with nextTex := s.nextTex + 1 }
      let s2 := s1.emit (.GenTextures texture)
      let s3 := s2.emit .ActiveTexture0
      let s4 := s3.emit (.BindTexture texture)
      let s5 := s4.emit (.TexImage2D width height)
      ((texture, none), s5)

/-- `TextureMgr.LoadTexture` on the process-wide manager. -/
def TextureMgr.LoadTexture (env : Env) (name : String) (s : State) :
    (Nat × Err) × State :=
  match s.textures.lookup name with
  | some v => ((v, none), s)
  | none =>
    if name = "buffer_a" ∨ name = "buffer_b" ∨ name = "buffer_c" ∨ name = "buffer_d" then
      let tex := s.nextTex
      let s1 := { s with nextTex := s.nextTex + 1 }
      let s2 := s1.emit (.CreateTextures tex)
      ((tex, none), { s2 with textures := (name, tex) :: s2.textures })
    else
      match newTextureEx env name s with
      | ((tex, none), s1) => ((tex, none), { s1 with textures := (name, tex) :: s1.textures })
      | ((tex, some e), s1) => ((tex, some e), s1)

/-- `compileShader` of `app.go`; the info log is the string the library
filled in. -/
def compileShader (env : Env) (source : String) (shaderType : ShaderKind) (s : State) :
    (Nat × Err) × State :=
  let shader := s.nextObj
  let s1 := { s with nextObj := s.nextObj + 1 }
  let s2 := s1.emit (.CreateShader shaderType shader)
  let s3 := s2.emit (.ShaderSource shader source)
  let s4 := s3.emit (.CompileShader shader)
  match env.compileLog shaderType source with
  | some log =>
    let s5 := s4.emit (.GetShaderInfoLog shader)
    ((0, some ("failed to compile " ++ source ++ ": " ++ log)), s5)
  | none => ((shader, none), s4)

/-- `newProgram` of `app.go`. -/
def newProgram (env : Env) (vertexShaderSource fragmentShaderSource : String) (s : State) :
    (Nat × Err) × State :=
  match compileShader env vertexShaderSource .VERTEX_SHADER s with
  | ((_, some err), s1) => ((0, some err), s1)
  | ((vertexShader, none), s1) =>
    match compileShader env fragmentShaderSource .FRAGMENT_SHADER s1 with
    | ((_, some err), s2) => ((0, some err), s2)
    | ((fragmentShader, none), s2) =>
      let program := s2.nextObj
      let s3 := { s2 with nextObj := s2.nextObj + 1 }
      let s4 := s3.emit (.CreateProgram program)
      let s5 := s4.emit (.AttachShader program vertexShader)
      let s6 := s5.emit (.AttachShader program fragmentShader)
      let s7 := s6.emit (.LinkProgram program)
      match env.linkLog vertexShaderSource fragmentShaderSource with
      | some log =>
        let s8 := s7.emit (.GetProgramInfoLog program)
        ((0, some ("failed to link program: " ++ log)), s8)
      | none =>
        let s8 := s7.emit (.DeleteShader vertexShader)
        let s9 := s8.emit (.DeleteShader fragmentShader)
        ((program, none), s9)

/-- One channel descriptor of a pass. -/
structure TextureConf where
  Path : String
  Filter : Int
  Wrap : Int
  deriving DecidableEq

/-- One pass: the exported fields come from the configuration, the others
start at their zero values. -/
structure BufferConf where
  Path : String
  Textures : List TextureConf
  program : Nat := 0
  fbo : Nat := 0
  name : String := ""
  deriving DecidableEq

/-- The vertex shader text of `BufferConf.init`. -/
def vertexShaderText : String :=
  "\n#version 450 core\nlayout(location = 0) in vec2 pos;\n\nvoid main()\n\x7b\n\tgl_Position = vec4(pos, 1.0, 1.0);\n\x7d\n" ++ "\x00"

/-- The raw string that opens the fragment shader in `BufferConf.init`. -/
def fragmentHeader : String :=
  "\n#version 450 core\nuniform vec3      iResolution;           // viewport resolution (in pixels)\nuniform float     iTime;                 // shader playback time (in seconds)\n//uniform float     iTimeDelta;            // render time (in seconds)\nuniform int       iFrame;                // shader playback frame\n//uniform float     iChannelTime[4];       // channel playback time (in seconds)\n//uniform vec3      iChannelResolution[4]; // channel resolution (in pixels)\nuniform vec4      iMouse;                // mouse pixel coords. xy: current (if MLB down), zw: click\nlayout (binding = 0) uniform sampler2D iChannel0;          // input channel. XX = 2D/Cube\nlayout (binding = 1) uniform sampler2D iChannel1;\nlayout (binding = 2) uniform sampler2D iChannel2;\nlayout (binding = 3) uniform sampler2D iChannel3;\n//uniform vec4      iDate;                 // (year, month, day, time in seconds)\nout vec4 fragColor;\n"

/-- The raw string that closes the fragment shader in `BufferConf.init`. -/
def fragmentMain : String :=
  "\nvoid main()\x7b\n\tmainImage(fragColor, gl_FragCoord.xy);\n\x7d\n"

/-- The expression assigned to `fragmentShader` in `BufferConf.init`. -/
def fragmentShaderText (commonStr content : String) : String :=
  fragmentHeader ++ commonStr ++ "\n" ++ content ++ fragmentMain ++ "\x00"

/-- The loop of `BufferConf.init` over the channel list: stops at the first
error. -/
def loadChannelTextures (env : Env) : List TextureConf → State → Err × State
  | [], s => (none, s)
  | conf :: rest, s =>
    match TextureMgr.LoadTexture env conf.Path s with
    | ((_, some err), s1) => (some err, s1)
    | ((_, none), s1) => loadChannelTextures env rest s1

/-- `BufferConf.init` of `app.go`. -/
def BufferConf.init (env : Env) (this : BufferConf) (commonStr : String) (s : State) :
    Err × BufferConf × State :=
  match loadChannelTextures env this.Textures s with
  | (some err, s1) => (some err, this, s1)
  | (none, s1) =>
    match env.readFile this.Path with
    | .ok content =>
      match newProgram env vertexShaderText (fragmentShaderText commonStr content) s1 with
      | ((program, none), s2) => (none, { this with program := program }, s2)
      | ((_, some err), s2) => (some err, this, s2)
    | .error err => (some err, this, s1)

/-- The shared source of a pipeline. -/
structure CommonConf where
  Path : String
  deriving DecidableEq

/-- The pipeline: each pass and the common source may be absent (`nil`). -/
structure PipelineConf where
  Buffer_A : Option BufferConf
  Buffer_B : Option BufferConf
  Buffer_C : Option BufferConf
  Buffer_D : Option BufferConf
  Image : Option BufferConf
  Common : Option CommonConf
  deriving DecidableEq

/-- The closure `initBuffer` of `PipelineConf.init`. -/
def initBuffer (env : Env) (commonStr : String) (conf : Option BufferConf) (name : String)
    (s : State) : Err × Option BufferConf × State :=
  match conf with
  | none => (none, none, s)
  | some c =>
    match BufferConf.init env c commonStr s with
    | (some err, c1, s1) => (some err, some c1, s1)
    | (none, c1, s1) =>
      let c2 := { c1 with name := name }
      let fbo := s1.nextFbo
      let s2 := { s1 with nextFbo := s1.nextFbo + 1 }
      let s3 := s2.emit (.CreateFramebuffers fbo)
      let c3 := { c2 with fbo := fbo }
      match TextureMgr.LoadTexture env name s3 with
      | ((_, some err), s4) => (some err, some c3, s4)
      | ((tex, none), s4) =>
        let s5 := s4.emit (.NamedFramebufferTexture c3.fbo tex)
        (none, some c3, s5)

/-- `PipelineConf.init` of `app.go`. -/
def PipelineConf.init (env : Env) (this : PipelineConf) (s : State) :
    Err × PipelineConf × State :=
  let common : Except String String :=
    match this.Common with
    | some c => env.readFile c.Path
    | none => .ok ""
  match common with
  | .error err => (some err, this, s)
  | .ok commonStr =>
    match this.Image with
    | none => (none, this, s)
    | some image =>
      match BufferConf.init env image commonStr s with
      | (some err, image1, s1) => (some err, { this with Image := some image1 }, s1)
      | (none, image1, s1) =>
        let this1 := { this with Image := some image1 }
        match initBuffer env commonStr this1.Buffer_A "buffer_a" s1 with
        | (some err, a, s2) => (some err, { this1 with Buffer_A := a }, s2)
        | (none, a, s2) =>
          let this2 := { this1 with Buffer_A := a }
          match initBuffer env commonStr this2.Buffer_B "buffer_b" s2 with
          | (some err, b, s3) => (some err, { this2 with Buffer_B := b }, s3)
          | (none, b, s3) =>
            let this3 := { this2 with Buffer_B := b }
            match initBuffer env commonStr this3.Buffer_C "buffer_c" s3 with
            | (some err, c, s4) => (some err, { this3 with Buffer_C := c }, s4)
            | (none, c, s4) =>
              let this4 := { this3 with Buffer_C := c }
              match initBuffer env commonStr this4.Buffer_D "buffer_d" s4 with
              | (some err, d, s5) => (some err, { this4 with Buffer_D := d }, s5)
              | (none, d, s5) => (none, { this4 with Buffer_D := d }, s5)

/-- The configuration document: window size and pipeline. -/
structure appConf where
  Width : Int
  Height : Int
  Pipeline : PipelineConf
  deriving DecidableEq

/-- The fields of `ShaderToy` that the render step reads. -/
structure ShaderToy where
  conf : appConf
  vao : Nat
  deriving DecidableEq

/-- What one `render` call reads from the window and the clock: the window
size, the cursor position, the state of the left button and the milliseconds
elapsed since `startTime`. -/
structure Input where
  width : Int
  height : Int
  cursorX : ℚ
  cursorY : ℚ
  leftPressed : Bool
  elapsedMs : Int

/-- Conversion `int32(v)` of a Go `int`. -/
def toInt32 (v : Int) : Int :=
  (v + 2 ^ 31) % 2 ^ 32 - 2 ^ 31

/-- Conversion `uint32(i)` of a Go `int`. -/
def toUint32 (i : Nat) : Nat :=
  i % 2 ^ 32

/-- `convertToFilter` of `app.go`. -/
def convertToFilter (val : Int) : Int :=
  let param := GL_LINEAR
  match val with
  | 1 => GL_NEAREST
  | 2 => GL_LINEAR
  | 3 => GL_MIPMAP
  | _ => param

/-- `convertToWrap` of `app.go`. -/
def convertToWrap (val : Int) : Int :=
  let param := GL_REPEAT
  match val with
  | 1 => GL_CLAMP_TO_EDGE
  | 2 => GL_REPEAT
  | _ => param

/-- The filter selection inside `ShaderToy.loadChan` of `appimpl.go`
(`filter := gl.MIPMAP` followed by the switch on `channel.Filter`). -/
def loadChanFilter (channelFilter : Int) : Int :=
  let filter := GL_MIPMAP
  match channelFilter with
  | 1 => GL_NEAREST
  | 2 => GL_LINEAR
  | 3 => GL_MIPMAP
  | _ => filter

/-- The wrap selection inside `ShaderToy.loadChan` of `appimpl.go`. -/
def loadChanWrap (channelWrap : Int) : Int :=
  let wrap := GL_REPEAT
  match channelWrap with
  | 1 => GL_CLAMP_TO_EDGE
  | 2 => GL_REPEAT
  | _ => wrap

/-- `ShaderToy.setUniform` of `app.go`. A uniform name is recorded as the C
string the library receives (the Go literal ends in a NUL for `gl.Str`). -/
def ShaderToy.setUniform (env : Env) (inp : Input) (program : Nat) (s : State) : State :=
  -- iResolution
  let loc := env.uniformLocation program "iResolution"
  let s1 := s.emit (.GetUniformLocation program "iResolution")
  let w := inp.width
  let h := inp.height
  let s2 := s1.emit (.Uniform3f loc (.ofInt w) (.ofInt h) (.ofInt 0))
  -- iTime
  let loc := env.uniformLocation program "iTime"
  let s3 := s2.emit (.GetUniformLocation program "iTime")
  let t := F32.msDiv1000 inp.elapsedMs
  let s4 := s3.emit (.Uniform1f loc t)
  -- iMouse
  let x := inp.cursorX
  let y := inp.cursorY
  let loc := env.uniformLocation program "iMouse"
  let s5 := s4.emit (.GetUniformLocation program "iMouse")
  if inp.leftPressed then
    s5.emit (.Uniform4f loc (.ofF64 x) (.ofF64 y) (.ofF64 x) (.ofF64 y))
  else
    if x > 0 ∧ y > 0 ∧ x < (w : ℚ) ∧ y < (h : ℚ) then
      s5.emit (.Uniform4f loc (.ofF64 x) (.ofF64 y) (.ofInt 0) (.ofInt 0))
    else
      s5

/-- The loop of `ShaderToy.render` over the channel list, from index `i` on;
the flag is `false` when the loop left `render` by its `return`. -/
def bindChannels (env : Env) : Nat → List TextureConf → State → Bool × State
  | _, [], s => (true, s)
  | i, conf :: rest, s =>
    match TextureMgr.LoadTexture env conf.Path s with
    | ((_, some _), s1) => (false, s1)
    | ((tex, none), s1) =>
      let s2 := s1.emit (.TextureParameteri tex GL_TEXTURE_MIN_FILTER (convertToFilter conf.Filter))
      let s3 := s2.emit (.TextureParameteri tex GL_TEXTURE_MAG_FILTER (convertToFilter conf.Filter))
      let s4 := s3.emit (.TextureParameteri tex GL_TEXTURE_WRAP_S (convertToWrap conf.Wrap))
      let s5 := s4.emit (.TextureParameteri tex GL_TEXTURE_WRAP_T (convertToWrap conf.Wrap))
      let s6 := s5.emit (.BindTextureUnit (toUint32 i) tex)
      bindChannels env (i + 1) rest s6

/-- The part of `ShaderToy.render` from `gl.Clear` to the end, which both
branches of the framebuffer test continue with: clear, program, uniforms,
channel loop (whose `return` ends `render`), vertex array, draw. -/
def renderDraw (env : Env) (this : ShaderToy) (inp : Input) (conf : BufferConf) (s : State) :
    State :=
  let s1 := s.emit .Clear
  let s2 := s1.emit (.UseProgram conf.program)
  let s3 := ShaderToy.setUniform env inp conf.program s2
  match bindChannels env 0 conf.Textures s3 with
  | (false, s4) => s4
  | (true, s4) =>
    let s5 := s4.emit (.BindVertexArray this.vao)
    s5.emit .DrawElements

/-- `ShaderToy.render` of `app.go`. -/
def ShaderToy.render (env : Env) (this : ShaderToy) (inp : Input) (conf : Option BufferConf)
    (s : State) : State :=
  match conf with
  | none => s
  | some conf =>
    let w := inp.width
    let h := inp.height
    let s1 := s.emit (.BindFramebuffer conf.fbo)
    if conf.fbo ≠ 0 then
      match TextureMgr.LoadTexture env conf.name s1 with
      | ((_, some _), s2) => s2
      | ((tex, none), s2) =>
        let s3 := s2.emit (.TextureImage2DEXT tex (toInt32 w) (toInt32 h))
        renderDraw env this inp conf s3
    else
      renderDraw env this inp conf s1

/-- `ShaderToy.renderGL` of `app.go`; `inp k` is what the `k`-th `render`
call of the frame reads from the window and the clock. -/
def ShaderToy.renderGL (env : Env) (this : ShaderToy) (inp : Nat → Input) (s : State) : State :=
  let s1 := ShaderToy.render env this (inp 0) this.conf.Pipeline.Buffer_A s
  let s2 := ShaderToy.render env this (inp 1) this.conf.Pipeline.Buffer_B s1
  let s3 := ShaderToy.render env this (inp 2) this.conf.Pipeline.Buffer_C s2
  let s4 := ShaderToy.render env this (inp 3) this.conf.Pipeline.Buffer_D s3
  ShaderToy.render env this (inp 4) this.conf.Pipeline.Image s4

/-! ## The single-shader variant (`appimpl.go`)

`newProgram` and `compileShader` of `appimpl.go` are the same text as in
`app.go`; the definitions above stand for both. -/

/-- One channel descriptor of the single-shader variant; `Type_` is the
field `Type`. -/
structure Impl.channel where
  Path : String
  Type_ : Int
  Filter : Int
  Wrap : Int
  deriving DecidableEq

/-- The configuration document of the single-shader variant. -/
structure Impl.windowConf where
  Width : Int
  Height : Int
  FragmentPath : String
  Channels : List Impl.channel
  Use4_5 : Bool
  deriving DecidableEq

/-- The fields of `ShaderToy` in `appimpl.go`, without the window and the
mutex; `startTime` is a clock reading. -/
structure Impl.ShaderToy where
  wConf : Impl.windowConf
  vao : Nat
  program : Nat
  vertexShader : String
  fragmentShader : String
  startTime : Int
  channels : List Nat
  channelStr : List String
  deriving DecidableEq

/-- The vertex shader text set by `NewShaderToy` in `appimpl.go`. -/
def Impl.vertexShaderText : String :=
  "\n\t#version 330 core\n\tlayout(location = 0) in vec2 pos;\n\n\tvoid main()\n\t\x7b\n\t\tgl_Position = vec4(pos, 1.0, 1.0);\n\t\x7d\n\t"

/-- The raw string that opens the fragment shader in `loadShaderGL`. -/
def Impl.fragmentHeader : String :=
  "#version 330 core\n\t\tuniform vec3      iResolution;           // viewport resolution (in pixels)\n\t\tuniform float     iTime;                 // shader playback time (in seconds)\n\t\t//uniform float     iTimeDelta;            // render time (in seconds)\n\t\t//uniform int       iFrame;                // shader playback frame\n\t\t//uniform float     iChannelTime[4];       // channel playback time (in seconds)\n\t\t//uniform vec3      iChannelResolution[4]; // channel resolution (in pixels)\n\t\tuniform vec4      iMouse;                // mouse pixel coords. xy: current (if MLB down), zw: click\n\t\t//uniform samplerXX iChannel0;          // input channel. XX = 2D/Cube\n\t\t//uniform vec4      iDate;                 // (year, month, day, time in seconds)\n\t\t//uniform float     iSampleRate;           // sound sample rate (i.e., 44100)\n\t\t"

/-- The raw string between the channel declarations and the file content. -/
def Impl.fragmentOut : String :=
  "\n\t\t\t\tout vec4 fragColor;\n\t\t\t\t"

/-- The raw string that closes the fragment shader in `loadShaderGL`. -/
def Impl.fragmentMain : String :=
  "\n\t\t\t\tvoid main()\x7b\n\t\t\tmainImage(fragColor, gl_FragCoord.xy);\n\t\t\x7d"

/-- `NewShaderToy` of `appimpl.go`. -/
def Impl.NewShaderToy : Impl.ShaderToy :=
  { wConf := { Width := 400, Height := 400, FragmentPath := "", Channels := [], Use4_5 := false },
    vao := 0, program := 0, vertexShader := Impl.vertexShaderText, fragmentShader := "",
    startTime := 0, channels := [], channelStr := [] }

/-- `newTexture` of `appimpl.go`. -/
def Impl.newTexture (env : Env) (file : String) (filter wrap : Int) (s : State) :
    (Nat × Err) × State :=
  match env.openImage file with
  | .missing reason =>
    ((0, some ("texture " ++ env.quote file ++ " not found on disk: "
        ++ osOpenError file reason)), s)
  | .undecodable msg => ((0, some msg), s)
  | .image width height =>
    -- `image.NewRGBA` sets `Stride` to four times the width
    let stride := 4 * width
    if stride ≠ width * 4 then
      ((0, some "unsupported stride"), s)
    else
      let texture := s.nextTex
      let s1 := { s with nextTex := s.nextTex + 1 }
      let s2 := s1.emit (.GenTextures texture)
      let s3 := s2.emit .ActiveTexture0
      let s4 := s3.emit (.BindTexture texture)
      let s5 := s4.emit (.TexParameteri GL_TEXTURE_MIN_FILTER filter)
      let s6 := s5.emit (.TexParameteri GL_TEXTURE_MAG_FILTER filter)
      let s7 := s6.emit (.TexParameteri GL_TEXTURE_WRAP_S wrap)
      let s8 := s7.emit (.TexParameteri GL_TEXTURE_WRAP_T wrap)
      let s9 := s8.emit (.TexImage2D width height)
      ((texture, none), s9)

/-- `ShaderToy.loadShaderGL` of `appimpl.go`. The mutex, taken on entry and
released on return, has no effect on one thread and is left out. -/
def Impl.ShaderToy.loadShaderGL (env : Env) (this : Impl.ShaderToy) (s : State) :
    Err × Impl.ShaderToy × State :=
  match env.readFile this.wConf.FragmentPath with
  | .ok content =>
    let this1 := { this with
      fragmentShader := Impl.fragmentHeader ++ "\n".intercalate this.channelStr
        ++ Impl.fragmentOut ++ content ++ Impl.fragmentMain }
    match newProgram env this1.vertexShader this1.fragmentShader s with
    | ((program, none), s1) => (none, { this1 with program := program }, s1)
    | ((_, some err), s1) => (some err, this1, s1)
  | .error err => (some err, this, s)

/-- The type selection inside `ShaderToy.loadChan`. -/
def Impl.loadChanType (channelType : Int) : String :=
  let texType := "2D"
  match channelType with
  | 1 => "2D"
  | 2 => "Cube"
  | _ => texType

/-- The loop of `ShaderToy.loadChan` from index `i` on, over the channels
not yet visited; it carries the two slices being built and the lines
printed, and stops at index 4. -/
def Impl.loadChanLoop (env : Env) :
    Nat → List Impl.channel → List Nat × List String × List String → State →
      (List Nat × List String × List String) × State
  | _, [], acc, s => (acc, s)
  | i, channel :: rest, (channels, channelstr, out), s =>
    if i < 4 then
      let filter := loadChanFilter channel.Filter
      let wrap := loadChanWrap channel.Wrap
      match Impl.newTexture env channel.Path (toInt32 filter) (toInt32 wrap) s with
      | ((_, some err), s1) =>
        Impl.loadChanLoop env (i + 1) rest (channels, channelstr, out ++ [err]) s1
      | ((tex, none), s1) =>
        let texType := Impl.loadChanType channel.Type_
        Impl.loadChanLoop env (i + 1) rest
          (channels ++ [tex],
           channelstr ++ ["uniform sampler" ++ texType ++ " iChannel" ++ toString i ++ ";"],
           out) s1
    else ((channels, channelstr, out), s)

/-- `ShaderToy.loadChan` of `appimpl.go`, with the lines it prints. -/
def Impl.ShaderToy.loadChan (env : Env) (this : Impl.ShaderToy) (s : State) :
    (Err × List String) × Impl.ShaderToy × State :=
  match Impl.loadChanLoop env 0 this.wConf.Channels ([], [], []) s with
  | ((channels, channelstr, out), s1) =>
    let s2 := if this.channels.length > 0 then s1.emit (.DeleteTextures this.channels) else s1
    ((none, out), { this with channelStr := channelstr, channels := channels }, s2)

/-- The value `glfw.MouseButtonRight`. -/
def Impl.MouseButtonRight : Int := 1

/-- The mouse button callback that `ShaderToy.Exec` of `appimpl.go` installs:
on the right button it reloads the shader and, when that succeeds, the
channels, and then resets the start time to the clock reading `now`. The
result carries the lines printed. -/
def Impl.mouseButtonCallback (env : Env) (now : Int) (button : Int) (this : Impl.ShaderToy)
    (s : State) : List String × Impl.ShaderToy × State :=
  if button = Impl.MouseButtonRight then
    match Impl.ShaderToy.loadShaderGL env this s with
    | (some err, this1, s1) => ([err], this1, s1)
    | (none, this1, s1) =>
      match Impl.ShaderToy.loadChan env this1 s1 with
      | ((some err, out), this2, s2) => (out ++ [err], this2, s2)
      | ((none, out), this2, s2) => (out, { this2 with startTime := now }, s2)
  else ([], this, s)

/-! ## Vocabulary of the statements -/

/-- Later uses of the cache: a run of `LoadTexture` calls, each with its own
environment and key, whatever their outcome. -/
def loadAll : List (Env × String) → State → State
  | [], s => s
  | (env, name) :: rest, s => loadAll rest (TextureMgr.LoadTexture env name s).2

/-- Record several library calls. -/
def State.emits (s : State) (cs : List GLCall) : State :=
  { s with calls := s.calls ++ cs }

/-- The library calls made between an earlier state and a later one. -/
def newCalls (s s1 : State) : List GLCall :=
  s1.calls.drop s.calls.length

/-- The calls that delimit a pass in the log: binding its framebuffer,
activating its program, drawing. -/
def isPassMark : GLCall → Bool
  | .BindFramebuffer _ => true
  | .UseProgram _ => true
  | .DrawElements => true
  | _ => false

/-- Number of `DrawElements` calls in a list of calls. -/
def drawCount (cs : List GLCall) : Nat :=
  cs.count .DrawElements

/-- The configured passes in the order of `renderGL`. -/
def passesInOrder (p : PipelineConf) : List BufferConf :=
  p.Buffer_A.toList ++ p.Buffer_B.toList ++ p.Buffer_C.toList ++ p.Buffer_D.toList
    ++ p.Image.toList

/-- Number of optional passes that are configured. -/
def configuredBuffers (p : PipelineConf) : Nat :=
  (p.Buffer_A.toList ++ p.Buffer_B.toList ++ p.Buffer_C.toList ++ p.Buffer_D.toList).length

/-- The delimiting calls of one drawn pass. -/
def passMarks (c : BufferConf) : List GLCall :=
  [.BindFramebuffer c.fbo, .UseProgram c.program, .DrawElements]

/-- The calls of one round of the channel loop of `render`, for the channel
at index `i` whose texture is `tex`. -/
def channelCalls (tex i : Nat) (conf : TextureConf) : List GLCall :=
  [.TextureParameteri tex GL_TEXTURE_MIN_FILTER (convertToFilter conf.Filter),
   .TextureParameteri tex GL_TEXTURE_MAG_FILTER (convertToFilter conf.Filter),
   .TextureParameteri tex GL_TEXTURE_WRAP_S (convertToWrap conf.Wrap),
   .TextureParameteri tex GL_TEXTURE_WRAP_T (convertToWrap conf.Wrap),
   .BindTextureUnit (toUint32 i) tex]

/-- A run of frames, each with its own environment and inputs. -/
def runFrames (this : ShaderToy) : List (Env × (Nat → Input)) → State → State
  | [], s => s
  | (env, inp) :: rest, s => runFrames this rest (ShaderToy.renderGL env this inp s)

/-- A key has an entry in the cache. -/
def cached (s : State) (k : String) : Prop :=
  (s.textures.lookup k).isSome = true

/-- Every texture that `render` resolves for this pass has a cache entry:
its channels, and its own output name when it has a framebuffer. -/
def passReady (s : State) (c : BufferConf) : Prop :=
  (∀ t ∈ c.Textures, cached s t.Path) ∧ (c.fbo ≠ 0 → cached s c.name)

/-- Every configured pass is ready. -/
def pipelineReady (s : State) (p : PipelineConf) : Prop :=
  ∀ c ∈ passesInOrder p, passReady s c

/-- The cache only gains entries from the first state to the second. -/
def cacheGrows (s s1 : State) : Prop :=
  ∀ k, cached s k → cached s1 k

/-- The calls of `setUniform`, as a list. -/
def uniformCalls (env : Env) (inp : Input) (program : Nat) : List GLCall :=
  [.GetUniformLocation program "iResolution",
   .Uniform3f (env.uniformLocation program "iResolution")
      (.ofInt inp.width) (.ofInt inp.height) (.ofInt 0),
   .GetUniformLocation program "iTime",
   .Uniform1f (env.uniformLocation program "iTime") (.msDiv1000 inp.elapsedMs),
   .GetUniformLocation program "iMouse"]
  ++ (if inp.leftPressed = true then
        [.Uniform4f (env.uniformLocation program "iMouse")
          (.ofF64 inp.cursorX) (.ofF64 inp.cursorY) (.ofF64 inp.cursorX) (.ofF64 inp.cursorY)]
      else if 0 < inp.cursorX ∧ inp.cursorX < (inp.width : ℚ)
          ∧ 0 < inp.cursorY ∧ inp.cursorY < (inp.height : ℚ) then
        [.Uniform4f (env.uniformLocation program "iMouse")
          (.ofF64 inp.cursorX) (.ofF64 inp.cursorY) (.ofInt 0) (.ofInt 0)]
      else [])

/-- A configuration as `json.Unmarshal` leaves it: the unexported fields of
the Image pass still have their zero values. -/
def imageDecoded (p : PipelineConf) : Prop :=
  ∀ c, p.Image = some c → c.fbo = 0

/-! ## Concrete inputs -/

/-- An environment with one image file `ok.png` and one shader file
`image.glsl`; every other path is missing; every shader compiles and links. -/
def demoEnv : Env where
  openImage := fun p =>
    if p = "ok.png" then .image 2 2 else .missing "no such file or directory"
  readFile := fun p =>
    if p = "image.glsl" then .ok "void mainImage(out vec4 c, in vec2 p)\x7b c = vec4(1.0); \x7d"
    else .error ("open " ++ p ++ ": no such file or directory")
  quote := fun p => "\"" ++ p ++ "\""
  compileLog := fun _ _ => none
  linkLog := fun _ _ => none
  uniformLocation := fun _ n =>
    if n = "iResolution" then 0 else if n = "iTime" then 1 else if n = "iMouse" then 2 else -1

/-- The state at program start: empty cache, no call made. -/
def startState : State :=
  { textures := [], nextTex := 1, nextObj := 1, nextFbo := 1, calls := [] }

/-- A 400 by 400 window, cursor at (10, 20), button released, one second in. -/
def demoInput : Input :=
  { width := 400, height := 400, cursorX := 10, cursorY := 20, leftPressed := false,
    elapsedMs := 1000 }

/-- A pipeline with Buffer A and Image; Image samples Buffer A and `ok.png`. -/
def demoPipeline : PipelineConf :=
  { Buffer_A := some { Path := "image.glsl", Textures := [⟨"buffer_a", 1, 1⟩] },
    Buffer_B := none, Buffer_C := none, Buffer_D := none,
    Image := some { Path := "image.glsl", Textures := [⟨"buffer_a", 0, 0⟩, ⟨"ok.png", 2, 2⟩] },
    Common := none }

/-- The application after `PipelineConf.init` has run on `demoPipeline`. -/
def demoToy : ShaderToy :=
  { conf := { Width := 400, Height := 400,
              Pipeline := (PipelineConf.init demoEnv demoPipeline startState).2.1 },
    vao := 1 }

/-- The state after `PipelineConf.init` has run on `demoPipeline`. -/
def demoState : State :=
  (PipelineConf.init demoEnv demoPipeline startState).2.2

/-- The error of reading the common source, `none` when there is no common
source or the read succeeds. -/
def commonError (env : Env) (p : PipelineConf) : Err :=
  match p.Common with
  | none => none
  | some c =>
    match env.readFile c.Path with
    | .ok _ => none
    | .error e => some e

/-- The pipeline of `NewShaderToy()` when no configuration file is read: no
pass, no common source. -/
def defaultPipeline : PipelineConf :=
  { Buffer_A := none, Buffer_B := none, Buffer_C := none, Buffer_D := none, Image := none,
    Common := none }

/-- A pipeline with Buffer A configured and no Image pass. -/
def bufferOnlyPipeline : PipelineConf :=
  { Buffer_A := some { Path := "image.glsl", Textures := [⟨"ok.png", 0, 0⟩] },
    Buffer_B := none, Buffer_C := none, Buffer_D := none, Image := none, Common := none }

/-- The steps of `PipelineConf.init` in their order: 0 the common source,
1 the Image pass, 2 to 5 the passes Buffer A to Buffer D. A step takes the
common text read so far, the configuration and the state. -/
def initStep (env : Env) :
    Nat → String × PipelineConf × State → Err × (String × PipelineConf × State)
  | 0, (_, p, s) =>
    match p.Common with
    | none => (none, ("", p, s))
    | some c =>
      match env.readFile c.Path with
      | .ok content => (none, (content, p, s))
      | .error e => (some e, ("", p, s))
  | 1, (common, p, s) =>
    match p.Image with
    | none => (none, (common, p, s))
    | some image =>
      let r := BufferConf.init env image common s
      (r.1, (common, { p with Image := some r.2.1 }, r.2.2))
  | 2, (common, p, s) =>
    let r := initBuffer env common p.Buffer_A "buffer_a" s
    (r.1, (common, { p with Buffer_A := r.2.1 }, r.2.2))
  | 3, (common, p, s) =>
    let r := initBuffer env common p.Buffer_B "buffer_b" s
    (r.1, (common, { p with Buffer_B := r.2.1 }, r.2.2))
  | 4, (common, p, s) =>
    let r := initBuffer env common p.Buffer_C "buffer_c" s
    (r.1, (common, { p with Buffer_C := r.2.1 }, r.2.2))
  | 5, (common, p, s) =>
    let r := initBuffer env common p.Buffer_D "buffer_d" s
    (r.1, (common, { p with Buffer_D := r.2.1 }, r.2.2))
  | _, x => (none, x)

/-- The steps before step `k`, run in order: `some` of what they leave when
each of them succeeded and step `k` is reached, `none` otherwise (a step
failed, or the Image pass is absent and `init` stopped there). -/
def stepsBefore (env : Env) :
    Nat → String × PipelineConf × State → Option (String × PipelineConf × State)
  | 0, x => some x
  | k + 1, x =>
    match stepsBefore env k x with
    | none => none
    | some y =>
      if k = 1 ∧ y.2.1.Image = none then none
      else
        match initStep env k y with
        | (none, z) => some z
        | (some _, _) => none

/-- A pipeline whose Buffer A source `buffer_a.glsl` is missing in `demoEnv`;
Buffer B, which comes after it, samples `ok.png`. -/
def failingBufferPipeline : PipelineConf :=
  { Buffer_A := some { Path := "buffer_a.glsl", Textures := [] },
    Buffer_B := some { Path := "image.glsl", Textures := [⟨"ok.png", 0, 0⟩] },
    Buffer_C := none, Buffer_D := none,
    Image := some { Path := "image.glsl", Textures := [] },
    Common := none }

/-- The steps from step `k` on, `n` of them, run in order on what the earlier
steps left: the first error ends the run, as does an absent Image pass at
step 1; the result is the error (if any) with the configuration and state at
the end of the run. -/
def initFrom (env : Env) :
    Nat → Nat → String × PipelineConf × State → Err × PipelineConf × State
  | 0, _, x => (none, x.2)
  | n + 1, k, x =>
    if k = 1 ∧ x.2.1.Image = none then (none, x.2)
    else
      match initStep env k x with
      | (some e, y) => (some e, y.2)
      | (none, z) => initFrom env n (k + 1) z

/-- One text occurs inside another. -/
def occursIn (piece text : String) : Prop :=
  piece.data <:+: text.data

/-- Executable test that the first list occurs inside the second. -/
def occursInB : List Char → List Char → Bool
  | piece, [] => piece.isPrefixOf []
  | piece, c :: rest => piece.isPrefixOf (c :: rest) || occursInB piece rest

/-- The four names that `LoadTexture` treats as render targets, not files. -/
def isReserved (name : String) : Prop :=
  name = "buffer_a" ∨ name = "buffer_b" ∨ name = "buffer_c" ∨ name = "buffer_d"

/-- An environment as `demoEnv` in which `bad.png` opens and does not decode. -/
def corruptEnv : Env :=
  { demoEnv with
    openImage := fun p =>
      if p = "bad.png" then .undecodable "image: unknown format"
      else if p = "ok.png" then .image 2 2
      else .missing "no such file or directory" }

/-- A pass whose first channel does not decode and whose second is missing. -/
def twoBadChannels : BufferConf :=
  { Path := "image.glsl", Textures := [⟨"bad.png", 0, 0⟩, ⟨"no.png", 0, 0⟩] }

/-- A pass whose first channel loads and whose second is missing. -/
def missingSecondChannel : BufferConf :=
  { Path := "image.glsl", Textures := [⟨"ok.png", 0, 0⟩, ⟨"no.png", 0, 0⟩] }

/-- The pass that step `k` of `PipelineConf.init` initialises. -/
def passAt (p : PipelineConf) : Nat → Option BufferConf
  | 1 => p.Image
  | 2 => p.Buffer_A
  | 3 => p.Buffer_B
  | 4 => p.Buffer_C
  | 5 => p.Buffer_D
  | _ => none

/-- A pipeline whose Image pass is `missingSecondChannel`. -/
def missingChannelPipeline : PipelineConf :=
  { Buffer_A := none, Buffer_B := none, Buffer_C := none, Buffer_D := none,
    Image := some missingSecondChannel, Common := none }

/-- The calls that write a four-component uniform. -/
def isUniform4f : GLCall → Bool
  | .Uniform4f _ _ _ _ _ => true
  | _ => false

/-- The uniform name that a call looks up, if it is a lookup. -/
def uniformName : GLCall → Option String
  | .GetUniformLocation _ name => some name
  | _ => none

/-- The inputs of a later frame: same window, two seconds in. -/
def laterInput : Input :=
  { width := 400, height := 400, cursorX := 10, cursorY := 20, leftPressed := false,
    elapsedMs := 2000 }

/-- The texture unit and texture of a call that binds a texture unit. -/
def bindOf : GLCall → Option (Nat × Nat)
  | .BindTextureUnit unit tex => some (unit, tex)
  | _ => none

/-- The bindings of the channels `cs`, the first of which has index `i`:
channel number `j` goes to unit `uint32(j)` with the texture that the cache
of `final` holds for its path. -/
def expectedBinds (final : State) : Nat → List TextureConf → List (Nat × Nat)
  | _, [] => []
  | i, t :: ts =>
    (toUint32 i, (final.textures.lookup t.Path).getD 0) :: expectedBinds final (i + 1) ts

/-- A pass with five channels, all the image `ok.png`. -/
def fiveChannels : BufferConf :=
  { Path := "image.glsl",
    Textures := [⟨"ok.png", 0, 0⟩, ⟨"ok.png", 1, 1⟩, ⟨"ok.png", 2, 2⟩, ⟨"ok.png", 3, 0⟩,
      ⟨"ok.png", 0, 0⟩] }

/-- A pass with two channels that both load: an image and a render target. -/
def twoGoodChannels : BufferConf :=
  { Path := "image.glsl", Textures := [⟨"ok.png", 1, 1⟩, ⟨"buffer_a", 2, 2⟩] }

/-- The calls that build a shader program. -/
def isShaderCall : GLCall → Bool
  | .CreateShader _ _ => true
  | .ShaderSource _ _ => true
  | .CompileShader _ => true
  | .GetShaderInfoLog _ => true
  | .CreateProgram _ => true
  | .AttachShader _ _ => true
  | .LinkProgram _ => true
  | .GetProgramInfoLog _ => true
  | .DeleteShader _ => true
  | _ => false

/-- An environment as `demoEnv` in which no fragment shader compiles. -/
def badCompileEnv : Env :=
  { demoEnv with
    compileLog := fun k _ =>
      match k with
      | .VERTEX_SHADER => none
      | .FRAGMENT_SHADER => some "0(12) : error C0000: syntax error" }

/-- A running single-shader application: program 7, one channel texture 3,
started at clock reading 100. -/
def runningToy : Impl.ShaderToy :=
  { Impl.NewShaderToy with
    wConf := { Width := 400, Height := 400, FragmentPath := "image.glsl",
               Channels := [⟨"ok.png", 1, 0, 0⟩], Use4_5 := true },
    vao := 1, program := 7, startTime := 100, channels := [3],
    channelStr := ["uniform sampler2D iChannel0;"] }

/-- A state of the library in which the names up to 7 are in use. -/
def runningState : State :=
  { textures := [], nextTex := 4, nextObj := 8, nextFbo := 1, calls := [] }

/-- The reserved texture name of the buffer pass that step `k` of
`PipelineConf.init` initialises. -/
def reservedName : Nat → String
  | 2 => "buffer_a"
  | 3 => "buffer_b"
  | 4 => "buffer_c"
  | 5 => "buffer_d"
  | _ => ""

/-- The texture whose storage a call (re)sizes, if it is such a call. -/
def resizeOf : GLCall → Option Nat
  | .TextureImage2DEXT tex _ _ => some tex
  | _ => none

/-- The second state comes after the first: its log extends the first log,
the cache has kept every entry, and no framebuffer name was given back. -/
def later (s s1 : State) : Prop :=
  (∃ l, s1.calls = s.calls ++ l)
    ∧ (∀ k h, s.textures.lookup k = some h → s1.textures.lookup k = some h)
    ∧ s.nextFbo ≤ s1.nextFbo

/-- A pipeline without Image pass whose Buffer A samples its own output. -/
def selfSamplingPipeline : PipelineConf :=
  { Buffer_A := some { Path := "image.glsl", Textures := [⟨"buffer_a", 0, 0⟩] },
    Buffer_B := none, Buffer_C := none, Buffer_D := none, Image := none, Common := none }

/-- The application holding `selfSamplingPipeline`. -/
def selfSamplingToy : ShaderToy :=
  { conf := { Width := 400, Height := 400, Pipeline := selfSamplingPipeline }, vao := 1 }

/-- Buffer A of `demoPipeline` as `PipelineConf.init` leaves it. -/
def demoBufferA : BufferConf :=
  { Path := "image.glsl", Textures := [⟨"buffer_a", 1, 1⟩], program := 6, fbo := 1,
    name := "buffer_a" }

/-- The Image pass of `demoPipeline` as `PipelineConf.init` leaves it. -/
def demoImage : BufferConf :=
  { Path := "image.glsl", Textures := [⟨"buffer_a", 0, 0⟩, ⟨"ok.png", 2, 2⟩], program := 3 }

/-- The key is one that `LoadTexture` resolves without error in this state:
it has a cache entry, or it is a reserved name, or it is a file that opens
and decodes. -/
def loadable (env : Env) (s : State) (name : String) : Bool :=
  (s.textures.lookup name).isSome
    || decide (name = "buffer_a" ∨ name = "buffer_b" ∨ name = "buffer_c" ∨ name = "buffer_d")
    || (match env.openImage name with
        | .image _ _ => true
        | _ => false)

/-- The channels that one `render` call of a pass reaches, judged on the
state before the call: none when the pass has a framebuffer and its own
output texture does not load, else the channels before the first one that
does not load. -/
def reachedChannels (env : Env) (s : State) (c : BufferConf) : List TextureConf :=
  if c.fbo ≠ 0 ∧ loadable env s c.name = false then []
  else c.Textures.takeWhile (fun t => loadable env s t.Path)

/-- Every texture that one `render` call of the pass resolves loads: its own
output texture when it has a framebuffer, and each of its channels. -/
def passDrawn (env : Env) (s : State) (c : BufferConf) : Bool :=
  (decide (c.fbo = 0) || loadable env s c.name)
    && c.Textures.all (fun t => loadable env s t.Path)

/-- The framebuffer and texture of a call that attaches a texture to a
framebuffer. -/
def attachOf : GLCall → Option (Nat × Nat)
  | .NamedFramebufferTexture fbo tex => some (fbo, tex)
  | _ => none

/-! ## Theorems -/

/-! ### The texture cache -/

theorem lookup_cons_of_lookup {m : List (String × Nat)} {k name : String} {h tex : Nat}
    (hk : m.lookup k = some h) (hn : m.lookup name = none) :
    ((name, tex) :: m).lookup k = some h := by
  have hne : (k == name) = false := by
    by_cases e : k = name
    · subst e; rw [hk] at hn; cases hn
    · simpa using e
  simp [List.lookup, hne, hk]

theorem newTextureEx_textures (env : Env) (file : String) (s : State) :
    (newTextureEx env file s).2.textures = s.textures := by
  unfold newTextureEx
  split
  · rfl
  · rfl
  · simp only [State.emit]
    split <;> rfl

theorem LoadTexture_hit {env : Env} {name : String} {s : State} {h : Nat}
    (hk : s.textures.lookup name = some h) :
    TextureMgr.LoadTexture env name s = ((h, none), s) := by
  unfold TextureMgr.LoadTexture
  simp [hk]

theorem LoadTexture_keeps {env : Env} {name k : String} {s : State} {h : Nat}
    (hk : s.textures.lookup k = some h) :
    (TextureMgr.LoadTexture env name s).2.textures.lookup k = some h := by
  unfold TextureMgr.LoadTexture
  split
  · exact hk
  · rename_i hn
    split
    · exact lookup_cons_of_lookup hk hn
    · have ht := newTextureEx_textures env name s
      split
      · rename_i tex s1 heq
        rw [heq] at ht
        simp only at ht ⊢
        rw [ht]
        exact lookup_cons_of_lookup hk hn
      · rename_i tex e s1 heq
        rw [heq] at ht
        simp only at ht ⊢
        rw [ht]; exact hk

theorem LoadTexture_caches {env : Env} {name : String} {s s1 : State} {h : Nat}
    (hl : TextureMgr.LoadTexture env name s = ((h, none), s1)) :
    s1.textures.lookup name = some h := by
  unfold TextureMgr.LoadTexture at hl
  split at hl
  · rename_i v hv
    simp only [Prod.mk.injEq, and_true] at hl
    obtain ⟨rfl, rfl⟩ := hl
    exact hv
  · split at hl
    · simp only [Prod.mk.injEq, and_true] at hl
      obtain ⟨rfl, rfl⟩ := hl
      simp [List.lookup]
    · split at hl
      · simp only [Prod.mk.injEq, and_true] at hl
        obtain ⟨rfl, rfl⟩ := hl
        simp [List.lookup]
      · simp at hl

theorem loadAll_keeps (later : List (Env × String)) {k : String} {s : State} {h : Nat}
    (hk : s.textures.lookup k = some h) :
    (loadAll later s).textures.lookup k = some h := by
  induction later generalizing s with
  | nil => exact hk
  | cons p rest ih =>
    obtain ⟨env, name⟩ := p
    exact ih (LoadTexture_keeps hk)

/-- C1: once `LoadTexture k` has succeeded with handle `h`, every later
`LoadTexture k` (after any run of other cache lookups, in any environment)
returns `h` with no error and leaves the whole state as it was: the cache map
is unchanged and no library call is added to the log. -/
theorem LoadTexture_idempotent (env : Env) (k : String) (s s1 : State) (h : Nat)
    (hl : TextureMgr.LoadTexture env k s = ((h, none), s1))
    (later : List (Env × String)) (env1 : Env) :
    TextureMgr.LoadTexture env1 k (loadAll later s1) = ((h, none), loadAll later s1) :=
  LoadTexture_hit (loadAll_keeps later (LoadTexture_caches hl))

theorem LoadTexture_idempotent_witness :
    TextureMgr.LoadTexture demoEnv "ok.png" startState
        = ((1, none), (TextureMgr.LoadTexture demoEnv "ok.png" startState).2)
      ∧ TextureMgr.LoadTexture demoEnv "ok.png"
          (loadAll [(demoEnv, "buffer_a"), (demoEnv, "no.png")]
            (TextureMgr.LoadTexture demoEnv "ok.png" startState).2)
        = ((1, none), loadAll [(demoEnv, "buffer_a"), (demoEnv, "no.png")]
            (TextureMgr.LoadTexture demoEnv "ok.png" startState).2) :=
  ⟨by decide, LoadTexture_idempotent demoEnv "ok.png" startState _ 1 (by decide) _ demoEnv⟩

/-! ### The call log -/

theorem emit_eq_emits (s : State) (c : GLCall) : s.emit c = s.emits [c] := rfl

theorem emits_nil (s : State) : s.emits [] = s := by
  simp [State.emits]

theorem emits_emits (s : State) (a b : List GLCall) :
    (s.emits a).emits b = s.emits (a ++ b) := by
  simp [State.emits, List.append_assoc]

theorem emits_textures (s : State) (l : List GLCall) : (s.emits l).textures = s.textures := rfl

theorem newCalls_emits (s : State) (l : List GLCall) : newCalls s (s.emits l) = l := by
  simp [newCalls, State.emits]

theorem cached_emits {s : State} {k : String} (l : List GLCall) (h : cached s k) :
    cached (s.emits l) k := h

theorem cached_lookup {s : State} {k : String} (h : cached s k) :
    ∃ v, s.textures.lookup k = some v := by
  unfold cached at h
  cases hl : s.textures.lookup k with
  | none => rw [hl] at h; cases h
  | some v => exact ⟨v, rfl⟩

theorem setUniform_eq (env : Env) (inp : Input) (program : Nat) (s : State) :
    ShaderToy.setUniform env inp program s = s.emits (uniformCalls env inp program) := by
  unfold ShaderToy.setUniform uniformCalls
  simp only [emit_eq_emits, emits_emits]
  by_cases hp : inp.leftPressed = true
  · simp [hp]
  · simp only [hp, if_false]
    by_cases hin : inp.cursorX > 0 ∧ inp.cursorY > 0 ∧ inp.cursorX < (inp.width : ℚ)
        ∧ inp.cursorY < (inp.height : ℚ)
    · have hin2 : 0 < inp.cursorX ∧ inp.cursorX < (inp.width : ℚ)
          ∧ 0 < inp.cursorY ∧ inp.cursorY < (inp.height : ℚ) :=
        ⟨hin.1, hin.2.2.1, hin.2.1, hin.2.2.2⟩
      rw [if_pos hin, if_pos hin2]
      simp
    · have hin2 : ¬ (0 < inp.cursorX ∧ inp.cursorX < (inp.width : ℚ)
          ∧ 0 < inp.cursorY ∧ inp.cursorY < (inp.height : ℚ)) :=
        fun h => hin ⟨h.1, h.2.2.1, h.2.1, h.2.2.2⟩
      rw [if_neg hin, if_neg hin2]
      simp

theorem uniformCalls_no_mark (env : Env) (inp : Input) (program : Nat) :
    (uniformCalls env inp program).filter isPassMark = [] := by
  unfold uniformCalls
  split_ifs <;> simp [isPassMark]

theorem bindChannels_cons_hit (env : Env) (i : Nat) (conf : TextureConf)
    (rest : List TextureConf) {s : State} {v : Nat}
    (hv : s.textures.lookup conf.Path = some v) :
    bindChannels env i (conf :: rest) s
      = bindChannels env (i + 1) rest (s.emits (channelCalls v i conf)) := by
  simp only [bindChannels, LoadTexture_hit hv, emit_eq_emits, emits_emits, channelCalls]
  rfl

/-- With every channel cached the loop of `render` runs to its end and adds
only texture calls. -/
theorem bindChannels_ready (env : Env) (cs : List TextureConf) :
    ∀ (i : Nat) (s : State), (∀ t ∈ cs, cached s t.Path) →
      ∃ l, bindChannels env i cs s = (true, s.emits l) ∧ l.filter isPassMark = [] := by
  induction cs with
  | nil =>
    intro i s _
    exact ⟨[], by simp [bindChannels, emits_nil], rfl⟩
  | cons conf rest ih =>
    intro i s hc
    obtain ⟨v, hv⟩ := cached_lookup (hc conf (List.mem_cons_self _ _))
    have hrest : ∀ t ∈ rest, cached s t.Path := fun t ht => hc t (List.mem_cons_of_mem _ ht)
    obtain ⟨l, hl, hm⟩ := ih (i + 1) (s.emits (channelCalls v i conf))
      (fun t ht => cached_emits _ (hrest t ht))
    refine ⟨channelCalls v i conf ++ l, ?_, ?_⟩
    · rw [bindChannels_cons_hit env i conf rest hv, hl, emits_emits]
    · simp [List.filter_append, hm, isPassMark, channelCalls]

theorem renderDraw_eq (env : Env) (this : ShaderToy) (inp : Input) (c : BufferConf)
    (s : State) :
    renderDraw env this inp c s
      = match bindChannels env 0 c.Textures
          (s.emits ([.Clear, .UseProgram c.program] ++ uniformCalls env inp c.program)) with
        | (false, s4) => s4
        | (true, s4) => s4.emits [.BindVertexArray this.vao, .DrawElements] := by
  simp only [renderDraw, emit_eq_emits, emits_emits, setUniform_eq]
  rfl

theorem renderDraw_ready (env : Env) (this : ShaderToy) (inp : Input) (c : BufferConf)
    (s : State) (hc : ∀ t ∈ c.Textures, cached s t.Path) :
    ∃ l, renderDraw env this inp c s = s.emits l
      ∧ l.filter isPassMark = [.UseProgram c.program, .DrawElements] := by
  obtain ⟨l, hl, hm⟩ := bindChannels_ready env c.Textures 0
    (s.emits ([.Clear, .UseProgram c.program] ++ uniformCalls env inp c.program))
    (fun t ht => cached_emits _ (hc t ht))
  refine ⟨([.Clear, .UseProgram c.program] ++ uniformCalls env inp c.program) ++ l
    ++ [.BindVertexArray this.vao, .DrawElements], ?_, ?_⟩
  · rw [renderDraw_eq, hl]
    simp only [emits_emits]
  · simp [List.filter_append, hm, isPassMark, uniformCalls_no_mark]

/-- A ready pass is drawn: `render` adds calls whose delimiters are exactly
framebuffer, program, draw. -/
theorem render_ready (env : Env) (this : ShaderToy) (inp : Input) (o : Option BufferConf)
    (s : State) (hr : ∀ c, o = some c → passReady s c) :
    ∃ l, ShaderToy.render env this inp o s = s.emits l
      ∧ l.filter isPassMark = o.toList.flatMap passMarks := by
  cases o with
  | none => exact ⟨[], by simp [ShaderToy.render, emits_nil], rfl⟩
  | some c =>
    obtain ⟨hch, hname⟩ := hr c rfl
    unfold ShaderToy.render
    simp only [emit_eq_emits]
    by_cases hf : c.fbo = 0
    · obtain ⟨l, hl, hm⟩ := renderDraw_ready env this inp c (s.emits [.BindFramebuffer c.fbo])
        (fun t ht => cached_emits _ (hch t ht))
      refine ⟨[.BindFramebuffer c.fbo] ++ l, ?_, ?_⟩
      · simp only [hf, ne_eq, not_true_eq_false, if_false]
        rw [hf] at hl
        rw [hl, emits_emits]
      · simp [List.filter_append, hm, isPassMark, passMarks]
    · obtain ⟨v, hv⟩ := cached_lookup (hname hf)
      have hv2 : (s.emits [GLCall.BindFramebuffer c.fbo]).textures.lookup c.name = some v := hv
      obtain ⟨l, hl, hm⟩ := renderDraw_ready env this inp c
        ((s.emits [.BindFramebuffer c.fbo]).emits
          [.TextureImage2DEXT v (toInt32 inp.width) (toInt32 inp.height)])
        (fun t ht => cached_emits _ (cached_emits _ (hch t ht)))
      refine ⟨[.BindFramebuffer c.fbo]
        ++ ([.TextureImage2DEXT v (toInt32 inp.width) (toInt32 inp.height)] ++ l), ?_, ?_⟩
      · simp only [ne_eq, hf, not_false_eq_true, if_true, LoadTexture_hit hv2]
        rw [hl]
        simp only [emits_emits, List.append_assoc]
      · simp [List.filter_append, hm, isPassMark, passMarks]

theorem pipelineReady_emits {s : State} {p : PipelineConf} (l : List GLCall)
    (h : pipelineReady s p) : pipelineReady (s.emits l) p := h

/-- On a ready pipeline one frame adds calls whose delimiters are those of
the configured passes in the order A, B, C, D, Image. -/
theorem renderGL_ready (env : Env) (this : ShaderToy) (inp : Nat → Input) (s : State)
    (hr : pipelineReady s this.conf.Pipeline) :
    ∃ l, ShaderToy.renderGL env this inp s = s.emits l
      ∧ l.filter isPassMark = (passesInOrder this.conf.Pipeline).flatMap passMarks := by
  have hmem : ∀ (o : Option BufferConf),
      (∀ c, o = some c → c ∈ passesInOrder this.conf.Pipeline) →
      ∀ (s1 : State), s1.textures = s.textures → ∀ c, o = some c → passReady s1 c := by
    intro o ho s1 hs1 c hc
    have := hr c (ho c hc)
    unfold passReady cached at this ⊢
    rw [hs1]; exact this
  unfold ShaderToy.renderGL
  obtain ⟨l1, h1, m1⟩ := render_ready env this (inp 0) this.conf.Pipeline.Buffer_A s
    (hmem _ (fun c hc => by simp [passesInOrder, hc]) s rfl)
  simp only [h1]
  obtain ⟨l2, h2, m2⟩ := render_ready env this (inp 1) this.conf.Pipeline.Buffer_B (s.emits l1)
    (hmem _ (fun c hc => by simp [passesInOrder, hc]) _ rfl)
  simp only [h2]
  obtain ⟨l3, h3, m3⟩ := render_ready env this (inp 2) this.conf.Pipeline.Buffer_C
    ((s.emits l1).emits l2) (hmem _ (fun c hc => by simp [passesInOrder, hc]) _ rfl)
  simp only [h3]
  obtain ⟨l4, h4, m4⟩ := render_ready env this (inp 3) this.conf.Pipeline.Buffer_D
    (((s.emits l1).emits l2).emits l3) (hmem _ (fun c hc => by simp [passesInOrder, hc]) _ rfl)
  simp only [h4]
  obtain ⟨l5, h5, m5⟩ := render_ready env this (inp 4) this.conf.Pipeline.Image
    ((((s.emits l1).emits l2).emits l3).emits l4) (hmem _ (fun c hc => by simp [passesInOrder, hc]) _ rfl)
  simp only [h5]
  refine ⟨l1 ++ (l2 ++ (l3 ++ (l4 ++ l5))), by simp only [emits_emits, List.append_assoc], ?_⟩
  simp only [List.filter_append, m1, m2, m3, m4, m5, passesInOrder, List.flatMap_append,
    List.append_assoc]

theorem runFrames_ready (this : ShaderToy) (frames : List (Env × (Nat → Input))) :
    ∀ (s : State), pipelineReady s this.conf.Pipeline →
      pipelineReady (runFrames this frames s) this.conf.Pipeline := by
  induction frames with
  | nil => intro s h; exact h
  | cons f rest ih =>
    intro s h
    obtain ⟨env, inp⟩ := f
    obtain ⟨l, hl, _⟩ := renderGL_ready env this inp s h
    simp only [runFrames, hl]
    exact ih _ (pipelineReady_emits l h)

/-! ### Initialisation fills the cache -/

theorem cacheGrows_refl (s : State) : cacheGrows s s := fun _ h => h

theorem cacheGrows_trans {s s1 s2 : State} (h1 : cacheGrows s s1) (h2 : cacheGrows s1 s2) :
    cacheGrows s s2 := fun k h => h2 k (h1 k h)

theorem cacheGrows_of_textures {s s1 : State} (h : s1.textures = s.textures) :
    cacheGrows s s1 := by
  intro k hk
  unfold cached at hk ⊢
  rw [h]; exact hk

theorem LoadTexture_grows (env : Env) (name : String) (s : State) :
    cacheGrows s (TextureMgr.LoadTexture env name s).2 := by
  intro k hk
  obtain ⟨v, hv⟩ := cached_lookup hk
  unfold cached
  rw [LoadTexture_keeps hv]
  rfl

theorem LoadTexture_ok_cached {env : Env} {name : String} {s s1 : State} {h : Nat}
    (hl : TextureMgr.LoadTexture env name s = ((h, none), s1)) : cached s1 name := by
  unfold cached
  rw [LoadTexture_caches hl]
  rfl

theorem loadChannelTextures_ok (env : Env) (cs : List TextureConf) :
    ∀ (s s1 : State), loadChannelTextures env cs s = (none, s1) →
      cacheGrows s s1 ∧ ∀ t ∈ cs, cached s1 t.Path := by
  induction cs with
  | nil =>
    intro s s1 h
    simp only [loadChannelTextures, Prod.mk.injEq, true_and] at h
    subst h
    exact ⟨cacheGrows_refl _, by simp⟩
  | cons conf rest ih =>
    intro s s1 h
    rcases hr : TextureMgr.LoadTexture env conf.Path s with ⟨⟨tex, _ | err⟩, s2⟩
    · simp only [loadChannelTextures, hr] at h
      obtain ⟨hg, hc⟩ := ih s2 s1 h
      have hg0 : cacheGrows s s2 := by
        have := LoadTexture_grows env conf.Path s
        rwa [hr] at this
      refine ⟨cacheGrows_trans hg0 hg, ?_⟩
      intro t ht
      rcases List.mem_cons.mp ht with rfl | ht
      · exact hg _ (LoadTexture_ok_cached hr)
      · exact hc t ht
    · simp [loadChannelTextures, hr] at h

theorem compileShader_textures (env : Env) (source : String) (k : ShaderKind) (s : State) :
    (compileShader env source k s).2.textures = s.textures := by
  unfold compileShader
  simp only
  split <;> rfl

theorem newProgram_textures (env : Env) (v f : String) (s : State) :
    (newProgram env v f s).2.textures = s.textures := by
  unfold newProgram
  have h1 := compileShader_textures env v .VERTEX_SHADER s
  split
  · rename_i heq; rw [heq] at h1; exact h1
  · rename_i vs s1 heq
    rw [heq] at h1
    have h2 := compileShader_textures env f .FRAGMENT_SHADER s1
    split
    · rename_i heq2; rw [heq2] at h2; simp only at h1 h2 ⊢; rw [h2, h1]
    · rename_i fs s2 heq2
      rw [heq2] at h2
      simp only at h1 h2 ⊢
      split <;> simp only [emit_eq_emits, emits_textures, h2, h1]

/-- A successful `BufferConf.init` leaves every channel of the pass cached and
changes only the `program` field. -/
theorem BufferConf_init_ok {env : Env} {c c1 : BufferConf} {common : String} {s s1 : State}
    (h : BufferConf.init env c common s = (none, c1, s1)) :
    c1.Textures = c.Textures ∧ c1.fbo = c.fbo ∧ c1.name = c.name
      ∧ cacheGrows s s1 ∧ ∀ t ∈ c.Textures, cached s1 t.Path := by
  unfold BufferConf.init at h
  rcases hr : loadChannelTextures env c.Textures s with ⟨_ | err, s2⟩
  · obtain ⟨hg, hc⟩ := loadChannelTextures_ok env c.Textures s s2 hr
    simp only [hr] at h
    cases hf : env.readFile c.Path with
    | error e => simp [hf] at h
    | ok content =>
      simp only [hf] at h
      have ht := newProgram_textures env vertexShaderText (fragmentShaderText common content) s2
      rcases hp : newProgram env vertexShaderText (fragmentShaderText common content) s2
        with ⟨⟨program, _ | err⟩, s3⟩
      · simp only [hp, Prod.mk.injEq, true_and] at h
        obtain ⟨rfl, rfl⟩ := h
        rw [hp] at ht
        have hg2 : cacheGrows s2 s3 := cacheGrows_of_textures ht
        exact ⟨rfl, rfl, rfl, cacheGrows_trans hg hg2, fun t ht => hg2 _ (hc t ht)⟩
      · simp [hp] at h
  · simp [hr] at h

/-- A successful `initBuffer` keeps absent passes absent and leaves a
configured pass ready. -/
theorem initBuffer_ok {env : Env} {common name : String} {o o1 : Option BufferConf}
    {s s1 : State} (h : initBuffer env common o name s = (none, o1, s1)) :
    cacheGrows s s1 ∧ o1.toList.length = o.toList.length ∧ ∀ c1, o1 = some c1 → passReady s1 c1 := by
  cases o with
  | none =>
    simp only [initBuffer, Prod.mk.injEq, true_and] at h
    obtain ⟨rfl, rfl⟩ := h
    exact ⟨cacheGrows_refl _, rfl, by simp⟩
  | some c =>
    unfold initBuffer at h
    rcases hr : BufferConf.init env c common s with ⟨_ | err, c1, s2⟩
    · obtain ⟨hT, -, -, hg, hc⟩ := BufferConf_init_ok hr
      simp only [hr, emit_eq_emits] at h
      rcases hl : TextureMgr.LoadTexture env name
          ({ s2 with nextFbo := s2.nextFbo + 1 }.emits [.CreateFramebuffers s2.nextFbo])
        with ⟨⟨tex, _ | err⟩, s3⟩
      · simp only [hl, Prod.mk.injEq, true_and] at h
        obtain ⟨rfl, rfl⟩ := h
        have hg1 : cacheGrows s2
            ({ s2 with nextFbo := s2.nextFbo + 1 }.emits [.CreateFramebuffers s2.nextFbo]) :=
          cacheGrows_of_textures rfl
        have hg2 : cacheGrows
            ({ s2 with nextFbo := s2.nextFbo + 1 }.emits [.CreateFramebuffers s2.nextFbo]) s3 := by
          have := LoadTexture_grows env name
            ({ s2 with nextFbo := s2.nextFbo + 1 }.emits [.CreateFramebuffers s2.nextFbo])
          rwa [hl] at this
        have hg3 : cacheGrows s3 (s3.emits [.NamedFramebufferTexture s2.nextFbo tex]) :=
          cacheGrows_of_textures rfl
        have hall := cacheGrows_trans hg1 (cacheGrows_trans hg2 hg3)
        refine ⟨cacheGrows_trans hg hall, rfl, ?_⟩
        intro c2 hc2
        simp only [Option.some.injEq] at hc2
        subst hc2
        refine ⟨?_, ?_⟩
        · intro t ht
          have ht2 : t ∈ c.Textures := by rw [← hT]; exact ht
          exact hall _ (hc t ht2)
        · intro _
          exact hg3 _ (LoadTexture_ok_cached hl)
      · simp [hl] at h
    · simp [hr] at h

theorem passReady_grows {s s1 : State} {c : BufferConf} (hg : cacheGrows s s1)
    (h : passReady s c) : passReady s1 c :=
  ⟨fun t ht => hg _ (h.1 t ht), fun hf => hg _ (h.2 hf)⟩

/-- The buffer steps of `PipelineConf.init`, once the Image pass is built:
on success every configured pass is ready. -/
theorem init_buffers_ready {env : Env} {common : String} {p : PipelineConf} {image1 : BufferConf}
    {s1 s5 : State} {a b c d : Option BufferConf} {s2 s3 s4 : State}
    (hi : passReady s1 image1)
    (ha : initBuffer env common p.Buffer_A "buffer_a" s1 = (none, a, s2))
    (hb : initBuffer env common p.Buffer_B "buffer_b" s2 = (none, b, s3))
    (hc : initBuffer env common p.Buffer_C "buffer_c" s3 = (none, c, s4))
    (hd : initBuffer env common p.Buffer_D "buffer_d" s4 = (none, d, s5)) :
    pipelineReady s5
        { Buffer_A := a, Buffer_B := b, Buffer_C := c, Buffer_D := d, Image := some image1,
          Common := p.Common }
      ∧ (a.toList ++ b.toList ++ c.toList ++ d.toList).length = configuredBuffers p := by
  obtain ⟨ga, la, ra⟩ := initBuffer_ok ha
  obtain ⟨gb, lb, rb⟩ := initBuffer_ok hb
  obtain ⟨gc, lc, rc⟩ := initBuffer_ok hc
  obtain ⟨gd, ld, rd⟩ := initBuffer_ok hd
  refine ⟨?_, ?_⟩
  · intro x hx
    simp only [passesInOrder, List.mem_append, Option.mem_toList, Option.mem_def] at hx
    rcases hx with (((hx | hx) | hx) | hx) | hx
    · exact passReady_grows (cacheGrows_trans gb (cacheGrows_trans gc gd)) (ra x hx)
    · exact passReady_grows (cacheGrows_trans gc gd) (rb x hx)
    · exact passReady_grows gd (rc x hx)
    · exact rd x hx
    · simp only [Option.some.injEq] at hx
      subst hx
      exact passReady_grows
        (cacheGrows_trans ga (cacheGrows_trans gb (cacheGrows_trans gc gd))) hi
  · simp only [configuredBuffers, List.length_append, la, lb, lc, ld]

/-- After a successful `PipelineConf.init` on a decoded configuration with an
Image pass, every configured pass is ready, and the same passes are
configured as before. -/
theorem PipelineConf_init_ready {env : Env} {p p1 : PipelineConf} {s s1 : State}
    (h : PipelineConf.init env p s = (none, p1, s1)) (himg : p.Image ≠ none)
    (hdec : imageDecoded p) :
    pipelineReady s1 p1 ∧ configuredBuffers p1 = configuredBuffers p ∧ p1.Image ≠ none := by
  unfold PipelineConf.init at h
  simp only at h
  split at h
  · simp at h
  · rename_i commonStr _
    cases hI : p.Image with
    | none => exact absurd hI himg
    | some image =>
      simp only [hI] at h
      rcases hr : BufferConf.init env image commonStr s with ⟨_ | err, image1, s2⟩
      · obtain ⟨hT, hfbo, -, hg, hc⟩ := BufferConf_init_ok hr
        have hi : passReady s2 image1 := by
          refine ⟨fun t ht => hc t (by rw [← hT]; exact ht), fun hf => ?_⟩
          exact absurd (hfbo.trans (hdec image hI)) hf
        simp only [hr] at h
        rcases ha : initBuffer env commonStr p.Buffer_A "buffer_a" s2 with ⟨_ | err, a, s3⟩
        · simp only [ha] at h
          rcases hb : initBuffer env commonStr p.Buffer_B "buffer_b" s3 with ⟨_ | err, b, s4⟩
          · simp only [hb] at h
            rcases hc2 : initBuffer env commonStr p.Buffer_C "buffer_c" s4 with ⟨_ | err, c, s5⟩
            · simp only [hc2] at h
              rcases hd : initBuffer env commonStr p.Buffer_D "buffer_d" s5 with ⟨_ | err, d, s6⟩
              · simp only [hd, Prod.mk.injEq, true_and] at h
                obtain ⟨rfl, rfl⟩ := h
                obtain ⟨hready, hlen⟩ := init_buffers_ready hi ha hb hc2 hd
                exact ⟨hready, hlen, by simp⟩
              · simp [hd] at h
            · simp [hc2] at h
          · simp [hb] at h
        · simp [ha] at h
      · simp [hr] at h

/-- C2: `renderGL` runs only after `PipelineConf.init` has succeeded (`Exec`
panics on an `initConf` error before its render loop). On a decoded
configuration with an Image pass and `N` optional passes, once `init` has
succeeded every call of `renderGL` (after any number of earlier frames) draws
each configured pass once, in the order Buffer A, Buffer B, Buffer C,
Buffer D, Image: the delimiting calls it adds are framebuffer, program, draw
for each configured pass in that order, and it adds exactly `N + 1`
`DrawElements` calls. -/
theorem renderGL_draws_after_init (env : Env) (conf0 : PipelineConf) (s0 : State)
    (this : ShaderToy) (s : State)
    (hinit : PipelineConf.init env conf0 s0 = (none, this.conf.Pipeline, s))
    (himg : conf0.Image ≠ none) (hdec : imageDecoded conf0)
    (earlier : List (Env × (Nat → Input))) (env1 : Env) (inp : Nat → Input) :
    (newCalls (runFrames this earlier s)
        (ShaderToy.renderGL env1 this inp (runFrames this earlier s))).filter isPassMark
      = (passesInOrder this.conf.Pipeline).flatMap passMarks
    ∧ drawCount (newCalls (runFrames this earlier s)
        (ShaderToy.renderGL env1 this inp (runFrames this earlier s)))
      = configuredBuffers conf0 + 1 := by
  obtain ⟨hready, hN, himg1⟩ := PipelineConf_init_ready hinit himg hdec
  have hr := runFrames_ready this earlier s hready
  obtain ⟨l, hl, hm⟩ := renderGL_ready env1 this inp _ hr
  rw [hl, newCalls_emits]
  refine ⟨hm, ?_⟩
  have hcount : drawCount l = drawCount (l.filter isPassMark) := by
    unfold drawCount
    rw [List.count_filter]
    rfl
  rw [hcount, hm, ← hN]
  obtain ⟨img, himg2⟩ := Option.ne_none_iff_exists'.mp himg1
  unfold drawCount passesInOrder configuredBuffers
  rw [himg2]
  generalize this.conf.Pipeline.Buffer_A = a
  generalize this.conf.Pipeline.Buffer_B = b
  generalize this.conf.Pipeline.Buffer_C = c
  generalize this.conf.Pipeline.Buffer_D = d
  cases a <;> cases b <;> cases c <;> cases d <;> simp [passMarks, List.count_cons]

theorem renderGL_draws_after_init_witness :
    PipelineConf.init demoEnv demoPipeline startState = (none, demoToy.conf.Pipeline, demoState)
    ∧ configuredBuffers demoPipeline = 1
    ∧ (newCalls (runFrames demoToy [(demoEnv, fun _ => demoInput)] demoState)
        (ShaderToy.renderGL demoEnv demoToy (fun _ => demoInput)
          (runFrames demoToy [(demoEnv, fun _ => demoInput)] demoState))).filter isPassMark
      = (passesInOrder demoToy.conf.Pipeline).flatMap passMarks
    ∧ drawCount (newCalls (runFrames demoToy [(demoEnv, fun _ => demoInput)] demoState)
        (ShaderToy.renderGL demoEnv demoToy (fun _ => demoInput)
          (runFrames demoToy [(demoEnv, fun _ => demoInput)] demoState)))
      = configuredBuffers demoPipeline + 1 :=
  ⟨rfl, rfl,
    renderGL_draws_after_init demoEnv demoPipeline startState demoToy demoState rfl
      (by decide) (by intro c hc; cases hc; rfl)
      [(demoEnv, fun _ => demoInput)] demoEnv (fun _ => demoInput)⟩

/-! ### Pipeline initialisation -/

/-- C3 as stated fails: on the default pipeline, which has no Image pass,
`PipelineConf.init` returns `nil`. -/
theorem init_default_no_error :
    defaultPipeline.Image = none
    ∧ PipelineConf.init demoEnv defaultPipeline startState
        = (none, defaultPipeline, startState) := by
  decide

/-- C3 (amended): when the Image pass is absent, `PipelineConf.init` returns
the error of reading the common source if that read fails and `nil`
otherwise, and does nothing else: the configuration and the state (cache,
call log) are returned as they were, so no pass is initialised. -/
theorem init_without_image (env : Env) (p : PipelineConf) (s : State) (h : p.Image = none) :
    PipelineConf.init env p s = (commonError env p, p, s) := by
  unfold PipelineConf.init commonError
  cases hC : p.Common with
  | none => simp [h]
  | some c =>
    cases hf : env.readFile c.Path with
    | error e => simp [hf]
    | ok content => simp [h, hf]

theorem init_without_image_witness :
    bufferOnlyPipeline.Image = none
    ∧ PipelineConf.init demoEnv bufferOnlyPipeline startState
        = (commonError demoEnv bufferOnlyPipeline, bufferOnlyPipeline, startState)
    ∧ commonError demoEnv bufferOnlyPipeline = none :=
  ⟨rfl, init_without_image demoEnv bufferOnlyPipeline startState rfl, rfl⟩
theorem init_eq_initFrom (env : Env) (p : PipelineConf) (s : State) :
    PipelineConf.init env p s = initFrom env 6 0 ("", p, s) := by
  unfold PipelineConf.init
  simp only [initFrom, initStep]
  cases hC : p.Common with
  | none =>
    simp only [zero_add, OfNat.zero_ne_ofNat, false_and, if_false]
    cases hI : p.Image with
    | none => simp
    | some image =>
      simp only [Nat.reduceAdd, true_and, reduceCtorEq, if_false]
      rcases hr : BufferConf.init env image "" s with ⟨_ | err, im1, s1⟩
      · simp only [OfNat.ofNat_ne_one, false_and, if_false]
        rcases ha : initBuffer env "" p.Buffer_A "buffer_a" s1 with ⟨_ | err, a, s2⟩
        · simp only []
          rcases hb : initBuffer env "" p.Buffer_B "buffer_b" s2 with ⟨_ | err, b, s3⟩
          · simp only []
            rcases hc : initBuffer env "" p.Buffer_C "buffer_c" s3 with ⟨_ | err, c, s4⟩
            · simp only []
              rcases hd : initBuffer env "" p.Buffer_D "buffer_d" s4 with ⟨_ | err, d, s5⟩
              · simp [hC]
              · simp [hC]
            · simp [hC]
          · simp [hC]
        · simp [hC]
      · simp [hC]
  | some cc =>
    simp only [zero_add, OfNat.zero_ne_ofNat, false_and, if_false]
    cases hf : env.readFile cc.Path with
    | error e => simp
    | ok content =>
      simp only []
      cases hI : p.Image with
      | none => simp
      | some image =>
        simp only [Nat.reduceAdd, true_and, reduceCtorEq, if_false]
        rcases hr : BufferConf.init env image content s with ⟨_ | err, im1, s1⟩
        · simp only [OfNat.ofNat_ne_one, false_and, if_false]
          rcases ha : initBuffer env content p.Buffer_A "buffer_a" s1 with ⟨_ | err, a, s2⟩
          · simp only []
            rcases hb : initBuffer env content p.Buffer_B "buffer_b" s2 with ⟨_ | err, b, s3⟩
            · simp only []
              rcases hc : initBuffer env content p.Buffer_C "buffer_c" s3 with ⟨_ | err, c, s4⟩
              · simp only []
                rcases hd : initBuffer env content p.Buffer_D "buffer_d" s4 with ⟨_ | err, d, s5⟩
                · simp [hC]
                · simp [hC]
              · simp [hC]
            · simp [hC]
          · simp [hC]
        · simp [hC]

theorem stepsBefore_succ {env : Env} {k : Nat} {x0 x : String × PipelineConf × State}
    (h : stepsBefore env (k + 1) x0 = some x) :
    ∃ y, stepsBefore env k x0 = some y ∧ ¬ (k = 1 ∧ y.2.1.Image = none)
      ∧ initStep env k y = (none, x) := by
  simp only [stepsBefore] at h
  cases hy : stepsBefore env k x0 with
  | none => simp [hy] at h
  | some y =>
    simp only [hy] at h
    by_cases hc : k = 1 ∧ y.2.1.Image = none
    · simp [hc] at h
    · rw [if_neg hc] at h
      rcases hs : initStep env k y with ⟨_ | e, z⟩
      · simp only [hs, Option.some.injEq] at h
        subst h
        exact ⟨y, rfl, hc, hs⟩
      · simp [hs] at h

theorem initFrom_of_stepsBefore (env : Env) (k : Nat) :
    ∀ (n : Nat) (x0 x : String × PipelineConf × State), stepsBefore env k x0 = some x →
      initFrom env (k + n) 0 x0 = initFrom env n k x := by
  induction k with
  | zero =>
    intro n x0 x h
    simp only [stepsBefore, Option.some.injEq] at h
    subst h
    simp
  | succ k ih =>
    intro n x0 x h
    obtain ⟨y, hy, hc, hs⟩ := stepsBefore_succ h
    have := ih (n + 1) x0 y hy
    rw [show k + 1 + n = k + (n + 1) by omega, this]
    simp only [initFrom, hc, if_false, hs]

/-- The run of `init` ends at the first step that fails. -/
theorem init_of_failing_step (env : Env) (p : PipelineConf) (s : State) (k : Nat)
    (x y : String × PipelineConf × State) (e : String)
    (hpre : stepsBefore env k ("", p, s) = some x)
    (hfail : initStep env k x = (some e, y)) :
    PipelineConf.init env p s = (some e, y.2.1, y.2.2) := by
  have hk : k ≤ 5 := by
    by_contra hk
    obtain ⟨j, rfl⟩ : ∃ j, k = j + 6 := ⟨k - 6, by omega⟩
    simp [initStep] at hfail
  have hc : ¬ (k = 1 ∧ x.2.1.Image = none) := by
    rintro ⟨rfl, hI⟩
    obtain ⟨common, p1, s1⟩ := x
    simp only at hI
    simp [initStep, hI] at hfail
  rw [init_eq_initFrom, show 6 = k + (5 - k + 1) by omega,
    initFrom_of_stepsBefore env k _ _ x hpre]
  simp only [initFrom, hc, if_false, hfail]

/-- C4: the steps of `PipelineConf.init` run in the order common source,
Image, Buffer A, Buffer B, Buffer C, Buffer D; when the steps before step `k`
have succeeded and step `k` fails with error `e`, `init` returns exactly `e`,
and the configuration and state it leaves are those left by step `k`: no
later step has loaded a texture, built a program or created a framebuffer. -/
theorem init_first_error (env : Env) (p : PipelineConf) (s : State) (k : Nat)
    (x y : String × PipelineConf × State) (e : String)
    (hpre : stepsBefore env k ("", p, s) = some x)
    (hfail : initStep env k x = (some e, y)) :
    PipelineConf.init env p s = (some e, y.2.1, y.2.2) :=
  init_of_failing_step env p s k x y e hpre hfail

theorem init_first_error_witness :
    stepsBefore demoEnv 2 ("", failingBufferPipeline, startState)
        = some ("", (PipelineConf.init demoEnv failingBufferPipeline startState).2.1,
            (PipelineConf.init demoEnv failingBufferPipeline startState).2.2)
    ∧ (initStep demoEnv 2 ("", (PipelineConf.init demoEnv failingBufferPipeline startState).2.1,
            (PipelineConf.init demoEnv failingBufferPipeline startState).2.2)).1
        = some "open buffer_a.glsl: no such file or directory"
    ∧ (PipelineConf.init demoEnv failingBufferPipeline startState).1
        = some "open buffer_a.glsl: no such file or directory"
    ∧ (PipelineConf.init demoEnv failingBufferPipeline startState).2.2.textures = [] :=
  ⟨rfl, rfl,
    congrArg Prod.fst (init_first_error demoEnv failingBufferPipeline startState 2 _ _ _
      (rfl : stepsBefore demoEnv 2 ("", failingBufferPipeline, startState)
        = some ("", (PipelineConf.init demoEnv failingBufferPipeline startState).2.1,
            (PipelineConf.init demoEnv failingBufferPipeline startState).2.2))
      (rfl : initStep demoEnv 2
          ("", (PipelineConf.init demoEnv failingBufferPipeline startState).2.1,
            (PipelineConf.init demoEnv failingBufferPipeline startState).2.2)
        = (some "open buffer_a.glsl: no such file or directory",
            ("", (PipelineConf.init demoEnv failingBufferPipeline startState).2.1,
            (PipelineConf.init demoEnv failingBufferPipeline startState).2.2)))),
    by decide⟩

/-! ### Shader text and error messages -/

theorem occursInB_iff (piece text : List Char) :
    occursInB piece text = true ↔ piece <:+: text := by
  induction text with
  | nil =>
    simp only [occursInB, List.isPrefixOf_iff_prefix, List.prefix_nil, List.infix_nil]
  | cons c rest ih =>
    simp only [occursInB, Bool.or_eq_true, List.isPrefixOf_iff_prefix, ih, List.infix_cons_iff]

theorem occursIn_iff (piece text : String) :
    occursIn piece text ↔ occursInB piece.data text.data = true :=
  (occursInB_iff _ _).symm

theorem occursIn_mid (pre piece post : String) : occursIn piece (pre ++ piece ++ post) := by
  unfold occursIn
  simp only [String.data_append]
  exact ⟨pre.data, post.data, rfl⟩

/-- C5 as stated fails: no fixed opening block `H` and closing block `M`
make the fragment shader text the plain concatenation `H ++ c ++ s ++ M` for
every common source `c` and pass source `s`, because the code puts a newline
between the two. -/
theorem fragmentShaderText_not_plain_concat :
    ¬ ∃ H M : String, ∀ c s : String, fragmentShaderText c s = H ++ c ++ s ++ M := by
  rintro ⟨H, M, h⟩
  have h1 := h "a" ""
  have h2 := h "" "a"
  have h3 : fragmentShaderText "a" "" = fragmentShaderText "" "a" := by
    rw [h1, h2]; simp
  unfold fragmentShaderText at h3
  have h4 := congrArg String.data h3
  simp only [String.data_append, List.append_assoc, List.append_cancel_left_eq] at h4
  revert h4
  decide

theorem newProgram_sends_fragment (env : Env) (v f : String) (s : State)
    (hv : env.compileLog .VERTEX_SHADER v = none) :
    GLCall.ShaderSource (s.nextObj + 1) f ∈ (newProgram env v f s).2.calls := by
  unfold newProgram compileShader
  simp only [hv, State.emit]
  cases hf : env.compileLog .FRAGMENT_SHADER f with
  | some log => simp
  | none =>
    simp only []
    cases hl : env.linkLog v f with
    | some log => simp
    | none => simp

/-- C5 (amended): when the channels of a pass load and its source file reads
as `content`, `BufferConf.init` hands `newProgram` a fragment shader text that
is exactly the fixed interface block, then the common source verbatim, then
one newline, then `content` verbatim, then the fixed `main`, then a NUL
terminator. The text depends on the common source and `content` only; the
outcome of `init` is the outcome of `newProgram` on it, and when the vertex
shader compiles that text is what the compiler receives as the source of the
second shader. -/
theorem init_fragment_text (env : Env) (this : BufferConf) (commonStr content : String)
    (s s1 : State)
    (hch : loadChannelTextures env this.Textures s = (none, s1))
    (hrd : env.readFile this.Path = .ok content) :
    BufferConf.init env this commonStr s
      = (match newProgram env vertexShaderText
            (fragmentHeader ++ commonStr ++ "\n" ++ content ++ fragmentMain ++ "\x00") s1 with
        | ((program, none), s2) => (none, { this with program := program }, s2)
        | ((_, some err), s2) => (some err, this, s2))
    ∧ (env.compileLog .VERTEX_SHADER vertexShaderText = none →
        GLCall.ShaderSource (s1.nextObj + 1)
            (fragmentHeader ++ commonStr ++ "\n" ++ content ++ fragmentMain ++ "\x00")
          ∈ (BufferConf.init env this commonStr s).2.2.calls) := by
  have heq : BufferConf.init env this commonStr s
      = (match newProgram env vertexShaderText
            (fragmentHeader ++ commonStr ++ "\n" ++ content ++ fragmentMain ++ "\x00") s1 with
        | ((program, none), s2) => (none, { this with program := program }, s2)
        | ((_, some err), s2) => (some err, this, s2)) := by
    unfold BufferConf.init
    simp only [hch, hrd, fragmentShaderText]
  refine ⟨heq, fun hv => ?_⟩
  have hmem := newProgram_sends_fragment env vertexShaderText
    (fragmentHeader ++ commonStr ++ "\n" ++ content ++ fragmentMain ++ "\x00") s1 hv
  rw [heq]
  rcases hp : newProgram env vertexShaderText
      (fragmentHeader ++ commonStr ++ "\n" ++ content ++ fragmentMain ++ "\x00") s1
    with ⟨⟨program, _ | err⟩, s2⟩ <;> rw [hp] at hmem <;> exact hmem

theorem init_fragment_text_witness :
    loadChannelTextures demoEnv [⟨"ok.png", 0, 0⟩] startState
        = (none, (TextureMgr.LoadTexture demoEnv "ok.png" startState).2)
    ∧ GLCall.ShaderSource 2
        (fragmentHeader ++ "float k = 2.0;" ++ "\n"
          ++ "void mainImage(out vec4 c, in vec2 p)\x7b c = vec4(1.0); \x7d"
          ++ fragmentMain ++ "\x00")
      ∈ (BufferConf.init demoEnv { Path := "image.glsl", Textures := [⟨"ok.png", 0, 0⟩] }
          "float k = 2.0;" startState).2.2.calls :=
  ⟨rfl, (init_fragment_text demoEnv { Path := "image.glsl", Textures := [⟨"ok.png", 0, 0⟩] }
    "float k = 2.0;" "void mainImage(out vec4 c, in vec2 p)\x7b c = vec4(1.0); \x7d"
    startState (TextureMgr.LoadTexture demoEnv "ok.png" startState).2 rfl rfl).2 rfl⟩

theorem loadChannelTextures_append (env : Env) (pre rest : List TextureConf) :
    ∀ (s : State), loadChannelTextures env (pre ++ rest) s
      = match loadChannelTextures env pre s with
        | (some e, s1) => (some e, s1)
        | (none, s1) => loadChannelTextures env rest s1 := by
  induction pre with
  | nil => intro s; simp [loadChannelTextures]
  | cons c cs ih =>
    intro s
    simp only [List.cons_append, loadChannelTextures]
    rcases hr : TextureMgr.LoadTexture env c.Path s with ⟨⟨tex, _ | err⟩, s2⟩
    · exact ih s2
    · simp

/-- A file path that is not cached and cannot be opened makes `LoadTexture`
fail, with the state unchanged and a message that names the path. -/
theorem LoadTexture_missing {env : Env} {name reason : String} {s : State}
    (hn : s.textures.lookup name = none) (hr : ¬ isReserved name)
    (hm : env.openImage name = .missing reason) :
    TextureMgr.LoadTexture env name s
      = ((0, some ("texture " ++ env.quote name ++ " not found on disk: "
            ++ osOpenError name reason)), s) := by
  unfold isReserved at hr
  unfold TextureMgr.LoadTexture newTextureEx
  simp [hn, hr, hm]

/-- A successful `LoadTexture` changes the cache entry of no other key. -/
theorem LoadTexture_other {env : Env} {name k : String} {s s1 : State} {h : Nat}
    (hl : TextureMgr.LoadTexture env name s = ((h, none), s1)) (hk : k ≠ name) :
    s1.textures.lookup k = s.textures.lookup k := by
  have hne : (k == name) = false := by simpa using hk
  unfold TextureMgr.LoadTexture at hl
  split at hl
  · simp only [Prod.mk.injEq, and_true] at hl
    obtain ⟨-, rfl⟩ := hl
    rfl
  · split at hl
    · simp only [Prod.mk.injEq, and_true] at hl
      obtain ⟨-, rfl⟩ := hl
      simp [List.lookup, hne, State.emit]
    · have ht := newTextureEx_textures env name s
      split at hl
      · rename_i heq
        rw [heq] at ht
        simp only [Prod.mk.injEq, and_true] at hl
        obtain ⟨-, rfl⟩ := hl
        simp only at ht
        simp [List.lookup, hne, ht]
      · simp at hl

/-- Channels that load leave a missing, uncached file path uncached. -/
theorem loadChannelTextures_keeps_missing (env : Env) (pre : List TextureConf)
    {name reason : String} (hr : ¬ isReserved name) (hm : env.openImage name = .missing reason) :
    ∀ (s s1 : State), s.textures.lookup name = none →
      loadChannelTextures env pre s = (none, s1) → s1.textures.lookup name = none := by
  induction pre with
  | nil =>
    intro s s1 hn h
    simp only [loadChannelTextures, Prod.mk.injEq, true_and] at h
    subst h; exact hn
  | cons c cs ih =>
    intro s s1 hn h
    rcases hl : TextureMgr.LoadTexture env c.Path s with ⟨⟨tex, _ | err⟩, s2⟩
    · simp only [loadChannelTextures, hl] at h
      have hne : name ≠ c.Path := by
        rintro rfl
        rw [LoadTexture_missing hn hr hm] at hl
        simp at hl
      exact ih s2 s1 ((LoadTexture_other hl hne).trans hn) h
    · simp [loadChannelTextures, hl] at h

/-- C6 as stated fails: the channel list of `twoBadChannels` contains the
file path `no.png`, not cached and not openable, yet the error that
`BufferConf.init` returns is the decoder's error for the earlier channel
`bad.png`, and its message does not contain `no.png`. -/
theorem init_error_omits_missing_path :
    (⟨"no.png", 0, 0⟩ : TextureConf) ∈ twoBadChannels.Textures
    ∧ startState.textures.lookup "no.png" = none
    ∧ corruptEnv.openImage "no.png" = .missing "no such file or directory"
    ∧ (BufferConf.init corruptEnv twoBadChannels "" startState).1
        = some "image: unknown format"
    ∧ ¬ occursIn "no.png" "image: unknown format" := by
  refine ⟨by decide, by decide, by decide, by decide, ?_⟩
  rw [occursIn_iff]
  decide

/-- A failing `BufferConf.init` of the pass at step `k` makes step `k` fail
with the same error and state. -/
theorem initStep_of_pass_error {env : Env} {k : Nat} {common : String} {p1 : PipelineConf}
    {s s1 : State} {this : BufferConf} {msg : String}
    (hp : passAt p1 k = some this)
    (hinit : BufferConf.init env this common s = (some msg, this, s1)) :
    ∃ y, initStep env k (common, p1, s) = (some msg, y) ∧ y.2.2 = s1 := by
  match k, hp with
  | 1, hp =>
    simp only [passAt] at hp
    simp only [initStep, hp, hinit]
    exact ⟨_, rfl, rfl⟩
  | 2, hp =>
    simp only [passAt] at hp
    simp only [initStep, hp, initBuffer, hinit]
    exact ⟨_, rfl, rfl⟩
  | 3, hp =>
    simp only [passAt] at hp
    simp only [initStep, hp, initBuffer, hinit]
    exact ⟨_, rfl, rfl⟩
  | 4, hp =>
    simp only [passAt] at hp
    simp only [initStep, hp, initBuffer, hinit]
    exact ⟨_, rfl, rfl⟩
  | 5, hp =>
    simp only [passAt] at hp
    simp only [initStep, hp, initBuffer, hinit]
    exact ⟨_, rfl, rfl⟩
  | 0, hp => simp [passAt] at hp
  | k + 6, hp => simp [passAt] at hp

/-- C6 (amended): when the channel list of a pass contains a file path that
is not cached and cannot be opened, and the channels before it load,
`BufferConf.init` returns an error whose message contains that path; the pass
is returned as it was (its `program` field is not set) and the state is the
one left by the earlier channels: no shader is compiled, no program is built,
and the path still has no cache entry. When `PipelineConf.init` reaches that
pass at one of its steps, it returns the same error and leaves the same
state. -/
theorem init_missing_channel (env : Env) (this : BufferConf) (commonStr : String)
    (s s1 : State) (pre post : List TextureConf) (conf : TextureConf) (reason : String)
    (hT : this.Textures = pre ++ conf :: post)
    (hfile : ¬ isReserved conf.Path)
    (hn : s.textures.lookup conf.Path = none)
    (hm : env.openImage conf.Path = .missing reason)
    (hpre : loadChannelTextures env pre s = (none, s1)) :
    ∃ msg, BufferConf.init env this commonStr s = (some msg, this, s1)
      ∧ occursIn conf.Path msg
      ∧ s1.textures.lookup conf.Path = none
      ∧ ∀ (p p1 : PipelineConf) (s0 : State) (k : Nat),
          stepsBefore env k ("", p, s0) = some (commonStr, p1, s) → passAt p1 k = some this →
          (PipelineConf.init env p s0).1 = some msg ∧ (PipelineConf.init env p s0).2.2 = s1 := by
  have hn1 := loadChannelTextures_keeps_missing env pre hfile hm s s1 hn hpre
  have hinit : BufferConf.init env this commonStr s
      = (some ("texture " ++ env.quote conf.Path ++ " not found on disk: "
          ++ osOpenError conf.Path reason), this, s1) := by
    unfold BufferConf.init
    rw [hT, loadChannelTextures_append, hpre]
    simp only [loadChannelTextures, LoadTexture_missing hn1 hfile hm]
  refine ⟨"texture " ++ env.quote conf.Path ++ " not found on disk: "
    ++ osOpenError conf.Path reason, hinit, ?_, hn1, ?_⟩
  · have : "texture " ++ env.quote conf.Path ++ " not found on disk: "
        ++ osOpenError conf.Path reason
        = ("texture " ++ env.quote conf.Path ++ " not found on disk: " ++ "open ")
          ++ conf.Path ++ (": " ++ reason) := by
      simp only [osOpenError, String.append_assoc]
    rw [this]
    exact occursIn_mid _ _ _
  · intro p p1 s0 k hsteps hpass
    obtain ⟨y, hy, hys⟩ := initStep_of_pass_error hpass hinit
    rw [init_of_failing_step env p s0 k _ y _ hsteps hy]
    exact ⟨rfl, hys⟩

theorem init_missing_channel_witness :
    missingSecondChannel.Textures = [⟨"ok.png", 0, 0⟩] ++ ⟨"no.png", 0, 0⟩ :: []
    ∧ loadChannelTextures demoEnv [⟨"ok.png", 0, 0⟩] startState
        = (none, (TextureMgr.LoadTexture demoEnv "ok.png" startState).2)
    ∧ ∃ msg, BufferConf.init demoEnv missingSecondChannel "" startState
        = (some msg, missingSecondChannel, (TextureMgr.LoadTexture demoEnv "ok.png" startState).2)
      ∧ occursIn "no.png" msg
      ∧ (PipelineConf.init demoEnv missingChannelPipeline startState).1 = some msg :=
  ⟨rfl, rfl,
    (init_missing_channel demoEnv missingSecondChannel "" startState
      (TextureMgr.LoadTexture demoEnv "ok.png" startState).2
      [⟨"ok.png", 0, 0⟩] [] ⟨"no.png", 0, 0⟩ "no such file or directory"
      rfl (by unfold isReserved; decide) (by decide) (by decide) rfl).imp
      (fun _ h => ⟨h.1, h.2.1, (h.2.2.2 missingChannelPipeline missingChannelPipeline
        startState 1 rfl rfl).1⟩)⟩

/-! ### Channel decoding and the render step -/

/-- C7 as stated fails: on the default code 0 `convertToFilter` gives the
linear mode while the decoder inside `loadChan` gives the mipmap mode, so the
two decoders disagree. -/
theorem convertToFilter_default_is_linear :
    convertToFilter 0 = GL_LINEAR ∧ convertToFilter 0 ≠ GL_MIPMAP
      ∧ loadChanFilter 0 = GL_MIPMAP ∧ convertToFilter 0 ≠ loadChanFilter 0 := by
  decide

/-- C7 (amended): both decoders map 1 to nearest, 2 to linear and 3 to
mipmap; on 0 and every other value `convertToFilter` gives linear and the
decoder inside `loadChan` gives mipmap, so the two agree exactly on the codes
1, 2 and 3. -/
theorem filter_decoders (val : Int) :
    convertToFilter val
        = (if val = 1 then GL_NEAREST else if val = 2 then GL_LINEAR
           else if val = 3 then GL_MIPMAP else GL_LINEAR)
    ∧ loadChanFilter val
        = (if val = 1 then GL_NEAREST else if val = 2 then GL_LINEAR
           else if val = 3 then GL_MIPMAP else GL_MIPMAP)
    ∧ (convertToFilter val = loadChanFilter val ↔ (val = 1 ∨ val = 2 ∨ val = 3)) := by
  have h1 : convertToFilter val
        = (if val = 1 then GL_NEAREST else if val = 2 then GL_LINEAR
           else if val = 3 then GL_MIPMAP else GL_LINEAR) := by
    unfold convertToFilter
    split <;> simp_all
  have h2 : loadChanFilter val
        = (if val = 1 then GL_NEAREST else if val = 2 then GL_LINEAR
           else if val = 3 then GL_MIPMAP else GL_MIPMAP) := by
    unfold loadChanFilter
    split <;> simp_all
  refine ⟨h1, h2, ?_⟩
  rw [h1, h2]
  by_cases c1 : val = 1
  · simp [c1]
  · by_cases c2 : val = 2
    · simp [c2]
    · by_cases c3 : val = 3
      · simp [c3]
      · simp [c1, c2, c3, GL_LINEAR, GL_MIPMAP]

theorem filter_decoders_witness :
    convertToFilter 7 = GL_LINEAR ∧ loadChanFilter 7 = GL_MIPMAP
      ∧ convertToFilter 2 = loadChanFilter 2 :=
  ⟨(filter_decoders 7).1, (filter_decoders 7).2.1, (filter_decoders 2).2.2.mpr (by decide)⟩

/-- C9: the only four-component uniform write of `setUniform` is the one to
the location of `iMouse`: with the left button pressed it writes
`(x, y, x, y)`; with the button released it writes `(x, y, 0, 0)` when
`0 < x < w` and `0 < y < h`, and nothing otherwise. -/
theorem setUniform_mouse (env : Env) (inp : Input) (program : Nat) (s : State) :
    (newCalls s (ShaderToy.setUniform env inp program s)).filter isUniform4f
      = if inp.leftPressed = true then
          [.Uniform4f (env.uniformLocation program "iMouse")
            (.ofF64 inp.cursorX) (.ofF64 inp.cursorY) (.ofF64 inp.cursorX) (.ofF64 inp.cursorY)]
        else if 0 < inp.cursorX ∧ inp.cursorX < (inp.width : ℚ)
            ∧ 0 < inp.cursorY ∧ inp.cursorY < (inp.height : ℚ) then
          [.Uniform4f (env.uniformLocation program "iMouse")
            (.ofF64 inp.cursorX) (.ofF64 inp.cursorY) (.ofInt 0) (.ofInt 0)]
        else [] := by
  rw [setUniform_eq, newCalls_emits]
  unfold uniformCalls
  split_ifs <;> simp [isUniform4f]

theorem setUniform_mouse_witness :
    (newCalls startState (ShaderToy.setUniform demoEnv demoInput 3 startState)).filter
        isUniform4f
      = [.Uniform4f 2 (.ofF64 10) (.ofF64 20) (.ofInt 0) (.ofInt 0)] :=
  (setUniform_mouse demoEnv demoInput 3 startState).trans (by decide)

set_option maxRecDepth 100000 in
/-- The fragment header of `BufferConf.init` declares the uniform `iFrame`. -/
theorem fragmentHeader_declares_iFrame :
    occursIn "uniform int       iFrame;                // shader playback frame"
      fragmentHeader := by
  rw [occursIn_iff]
  decide

/-- C10, the code at two frames of `demoToy`: every pass of every frame looks
up exactly the uniforms `iResolution`, `iTime` and `iMouse`; `iFrame`, which
the fragment header declares, is looked up nowhere in the whole log, so it is
never written. -/
theorem renderGL_never_sets_iFrame :
    (newCalls demoState
        (runFrames demoToy [(demoEnv, fun _ => demoInput), (demoEnv, fun _ => laterInput)]
          demoState)).filterMap uniformName
      = ["iResolution", "iTime", "iMouse", "iResolution", "iTime", "iMouse",
         "iResolution", "iTime", "iMouse", "iResolution", "iTime", "iMouse"]
    ∧ "iFrame" ∉ (runFrames demoToy
          [(demoEnv, fun _ => demoInput), (demoEnv, fun _ => laterInput)]
          demoState).calls.filterMap uniformName
    ∧ occursIn "uniform int       iFrame;                // shader playback frame"
        fragmentHeader :=
  ⟨by rfl, by decide, fragmentHeader_declares_iFrame⟩

theorem newTextureEx_calls (env : Env) (file : String) (s : State) :
    ∃ l, (newTextureEx env file s).2.calls = s.calls ++ l
      ∧ l.filterMap bindOf = [] ∧ GLCall.DrawElements ∉ l := by
  unfold newTextureEx
  split
  · exact ⟨[], by simp, rfl, by simp⟩
  · exact ⟨[], by simp, rfl, by simp⟩
  · rename_i w h _
    simp only [ne_eq, mul_comm, not_true_eq_false, if_false]
    exact ⟨[.GenTextures s.nextTex, .ActiveTexture0, .BindTexture s.nextTex,
      .TexImage2D w h], by simp [State.emit], rfl, by simp⟩

theorem LoadTexture_calls (env : Env) (name : String) (s : State) :
    ∃ l, (TextureMgr.LoadTexture env name s).2.calls = s.calls ++ l
      ∧ l.filterMap bindOf = [] ∧ GLCall.DrawElements ∉ l := by
  unfold TextureMgr.LoadTexture
  split
  · exact ⟨[], by simp, rfl, by simp⟩
  · split
    · exact ⟨[.CreateTextures s.nextTex], rfl, rfl, by simp⟩
    · obtain ⟨l, hl, hb, hd⟩ := newTextureEx_calls env name s
      rcases hr : newTextureEx env name s with ⟨⟨tex, _ | e⟩, s1⟩
      · rw [hr] at hl
        exact ⟨l, hl, hb, hd⟩
      · rw [hr] at hl
        exact ⟨l, hl, hb, hd⟩

theorem expectedBinds_congr {a b : State} (h : a.textures = b.textures) (i : Nat)
    (cs : List TextureConf) : expectedBinds a i cs = expectedBinds b i cs := by
  induction cs generalizing i with
  | nil => rfl
  | cons t ts ih => simp only [expectedBinds, h, ih]

theorem expectedBinds_unit_lt (final : State) (cs : List TextureConf) :
    ∀ (i : Nat), i + cs.length ≤ 4 → ∀ b ∈ expectedBinds final i cs, b.1 < 4 := by
  induction cs with
  | nil => intro i _ b hb; simp [expectedBinds] at hb
  | cons t ts ih =>
    intro i hi b hb
    simp only [List.length_cons] at hi
    simp only [expectedBinds, List.mem_cons] at hb
    rcases hb with rfl | hb
    · simp only [toUint32]
      omega
    · exact ih (i + 1) (by omega) b hb

theorem uniformCalls_no_bind (env : Env) (inp : Input) (program : Nat) :
    (uniformCalls env inp program).filterMap bindOf = []
      ∧ GLCall.DrawElements ∉ uniformCalls env inp program := by
  unfold uniformCalls
  split_ifs <;> simp [bindOf]

theorem newCalls_of_append {s s1 : State} {l : List GLCall} (h : s1.calls = s.calls ++ l) :
    newCalls s s1 = l := by
  simp [newCalls, h]

/-- `LoadTexture` returns no error exactly on the loadable keys. -/
theorem LoadTexture_ok_iff (env : Env) (name : String) (s : State) :
    (TextureMgr.LoadTexture env name s).1.2 = none ↔ loadable env s name = true := by
  unfold TextureMgr.LoadTexture loadable
  cases hl : s.textures.lookup name with
  | some v => simp
  | none =>
    by_cases hr : name = "buffer_a" ∨ name = "buffer_b" ∨ name = "buffer_c" ∨ name = "buffer_d"
    · simp [hr]
    · simp only [hr, if_false, Option.isSome_none, decide_False, Bool.false_or]
      unfold newTextureEx
      cases ho : env.openImage name with
      | missing reason => simp
      | undecodable msg => simp
      | image w h => simp [mul_comm]

/-- A `LoadTexture` that returns an error leaves the state as it was. -/
theorem LoadTexture_error_state {env : Env} {name : String} {s : State} {e : String}
    (h : (TextureMgr.LoadTexture env name s).1.2 = some e) :
    (TextureMgr.LoadTexture env name s).2 = s := by
  unfold TextureMgr.LoadTexture at h ⊢
  cases hl : s.textures.lookup name with
  | some v => simp
  | none =>
    by_cases hr : name = "buffer_a" ∨ name = "buffer_b" ∨ name = "buffer_c" ∨ name = "buffer_d"
    · simp [hl, hr] at h
    · simp only [hl, hr, if_false] at h ⊢
      unfold newTextureEx at h ⊢
      cases ho : env.openImage name with
      | missing reason => simp
      | undecodable msg => simp
      | image w ht => simp [ho, mul_comm] at h

/-- Whether a key loads does not change when some key is loaded. -/
theorem loadable_LoadTexture (env : Env) (name p : String) (s : State) :
    loadable env (TextureMgr.LoadTexture env name s).2 p = loadable env s p := by
  rcases hr : TextureMgr.LoadTexture env name s with ⟨⟨tex, _ | e⟩, s1⟩
  · simp only
    by_cases hp : p = name
    · subst hp
      have h1 : loadable env s p = true := (LoadTexture_ok_iff env p s).mp (by rw [hr])
      rw [h1]
      unfold loadable
      rw [LoadTexture_caches hr]
      rfl
    · unfold loadable
      rw [LoadTexture_other hr hp]
  · have := LoadTexture_error_state (show (TextureMgr.LoadTexture env name s).1.2 = some e by
      rw [hr])
    rw [hr] at this
    simp only at this ⊢
    rw [this]

theorem loadable_congr {env : Env} {a b : State} (h : a.textures = b.textures) (p : String) :
    loadable env a p = loadable env b p := by
  unfold loadable
  rw [h]

/-- The channel loop of `render`, exactly: it runs to its end when every
channel loads, and it binds the channels before the first one that does not
load, in order, each to the unit of its index with its cached texture. -/
theorem bindChannels_exact (env : Env) (cs : List TextureConf) :
    ∀ (i : Nat) (s : State),
      (bindChannels env i cs s).1 = cs.all (fun t => loadable env s t.Path)
      ∧ (∃ l, (bindChannels env i cs s).2.calls = s.calls ++ l
          ∧ l.filterMap bindOf = expectedBinds (bindChannels env i cs s).2 i
              (cs.takeWhile (fun t => loadable env s t.Path))
          ∧ GLCall.DrawElements ∉ l)
      ∧ (∀ k h, s.textures.lookup k = some h →
          (bindChannels env i cs s).2.textures.lookup k = some h) := by
  induction cs with
  | nil =>
    intro i s
    exact ⟨by simp [bindChannels], ⟨[], by simp [bindChannels], by simp [expectedBinds],
      by simp⟩, fun _ _ h => h⟩
  | cons conf rest ih =>
    intro i s
    obtain ⟨l0, hl0, hb0, hd0⟩ := LoadTexture_calls env conf.Path s
    have hkeep0 : ∀ k h, s.textures.lookup k = some h →
        (TextureMgr.LoadTexture env conf.Path s).2.textures.lookup k = some h :=
      fun k h hk => LoadTexture_keeps hk
    have hiff := LoadTexture_ok_iff env conf.Path s
    have hstab := fun p => loadable_LoadTexture env conf.Path p s
    rcases hr : TextureMgr.LoadTexture env conf.Path s with ⟨⟨tex, _ | err⟩, s1⟩
    · rw [hr] at hl0 hkeep0 hiff hstab
      simp only at hl0 hkeep0 hstab
      have hload : loadable env s conf.Path = true := hiff.mp rfl
      have hstep : bindChannels env i (conf :: rest) s
          = bindChannels env (i + 1) rest (s1.emits (channelCalls tex i conf)) := by
        simp only [bindChannels, hr, emit_eq_emits, emits_emits, channelCalls]
        rfl
      have hfun : (fun t : TextureConf =>
            loadable env (s1.emits (channelCalls tex i conf)) t.Path)
          = (fun t : TextureConf => loadable env s t.Path) := by
        funext t
        rw [loadable_congr (emits_textures s1 (channelCalls tex i conf)), hstab]
      obtain ⟨hall, ⟨l, hl, hb, hd⟩, hk⟩ := ih (i + 1) (s1.emits (channelCalls tex i conf))
      rw [hfun] at hall hb
      rw [hstep]
      refine ⟨by simp [hall, hload], ⟨l0 ++ channelCalls tex i conf ++ l, ?_, ?_, ?_⟩, ?_⟩
      · rw [hl]
        simp only [State.emits, hl0, List.append_assoc]
      · have htex : (bindChannels env (i + 1) rest
            (s1.emits (channelCalls tex i conf))).2.textures.lookup conf.Path = some tex :=
          hk _ _ (show (s1.emits (channelCalls tex i conf)).textures.lookup conf.Path = some tex
            from (LoadTexture_caches hr : s1.textures.lookup conf.Path = some tex))
        simp only [List.filterMap_append, hb0, hb, List.takeWhile_cons, hload, if_true,
          expectedBinds, htex, Option.getD_some, List.nil_append]
        simp [channelCalls, bindOf]
      · simp only [List.mem_append, not_or]
        exact ⟨⟨hd0, by simp [channelCalls]⟩, hd⟩
      · intro k h hkh
        exact hk k h (hkeep0 k h hkh)
    · rw [hr] at hl0 hkeep0 hiff
      simp only at hl0 hkeep0 hiff
      have hload : loadable env s conf.Path = false := by
        cases hx : loadable env s conf.Path with
        | false => rfl
        | true => exact absurd (hiff.mpr hx) (by simp)
      have hstep : bindChannels env i (conf :: rest) s = (false, s1) := by
        simp only [bindChannels, hr]
      rw [hstep]
      exact ⟨by simp [hload], ⟨l0, hl0, by simp [hb0, hload, expectedBinds], hd0⟩, hkeep0⟩

theorem drawCount_of_not_mem {l : List GLCall} (h : GLCall.DrawElements ∉ l) :
    drawCount l = 0 := by
  unfold drawCount
  exact List.count_eq_zero.mpr h

theorem drawCount_append (a b : List GLCall) : drawCount (a ++ b) = drawCount a + drawCount b := by
  unfold drawCount
  exact List.count_append _ _ _

theorem expectedBinds_length (final : State) (cs : List TextureConf) :
    ∀ (i : Nat), (expectedBinds final i cs).length = cs.length := by
  induction cs with
  | nil => intro i; rfl
  | cons t ts ih => intro i; simp [expectedBinds, ih]

theorem takeWhile_of_all {cs : List TextureConf} {f : TextureConf → Bool}
    (h : cs.all f = true) : cs.takeWhile f = cs := by
  induction cs with
  | nil => rfl
  | cons t ts ih =>
    simp only [List.all_cons, Bool.and_eq_true] at h
    simp [List.takeWhile_cons, h.1, ih h.2]

/-- The part of `render` from `gl.Clear` on, exactly: its bindings are those
of the channel loop, and it draws once when every channel loads and not at
all otherwise. -/
theorem renderDraw_exact (env : Env) (this : ShaderToy) (inp : Input) (c : BufferConf)
    (s : State) :
    ∃ l, (renderDraw env this inp c s).calls = s.calls ++ l
      ∧ l.filterMap bindOf = expectedBinds (renderDraw env this inp c s) 0
          (c.Textures.takeWhile (fun t => loadable env s t.Path))
      ∧ drawCount l = if c.Textures.all (fun t => loadable env s t.Path) = true then 1 else 0 := by
  obtain ⟨hub, hud⟩ := uniformCalls_no_bind env inp c.program
  obtain ⟨hall, ⟨l, hl, hb, hd⟩, -⟩ := bindChannels_exact env c.Textures 0
    (s.emits ([.Clear, .UseProgram c.program] ++ uniformCalls env inp c.program))
  have hfun : (fun t : TextureConf => loadable env
        (s.emits ([.Clear, .UseProgram c.program] ++ uniformCalls env inp c.program)) t.Path)
      = (fun t : TextureConf => loadable env s t.Path) := by
    funext t
    exact loadable_congr (emits_textures s _) t.Path
  rw [hfun] at hall hb
  have hpre : drawCount ([.Clear, .UseProgram c.program] ++ uniformCalls env inp c.program) = 0 :=
    drawCount_of_not_mem (by
      simp only [List.mem_append, List.mem_cons, reduceCtorEq, List.mem_nil_iff, or_false,
        false_or]
      exact hud)
  rw [renderDraw_eq]
  rcases hbc : bindChannels env 0 c.Textures
      (s.emits ([.Clear, .UseProgram c.program] ++ uniformCalls env inp c.program))
    with ⟨_ | _, s4⟩
  · rw [hbc] at hl hb hall
    rw [hbc]
    simp only at hl hb hall ⊢
    refine ⟨[.Clear, .UseProgram c.program] ++ uniformCalls env inp c.program ++ l, ?_, ?_, ?_⟩
    · rw [hl]; simp [State.emits]
    · simp only [List.filterMap_append, hub, hb]
      simp [bindOf]
    · rw [drawCount_append, hpre, drawCount_of_not_mem hd, ← hall]
      simp
  · rw [hbc] at hl hb hall
    rw [hbc]
    simp only at hl hb hall ⊢
    refine ⟨[.Clear, .UseProgram c.program] ++ uniformCalls env inp c.program ++ l
      ++ [.BindVertexArray this.vao, .DrawElements], ?_, ?_, ?_⟩
    · simp [State.emits, hl]
    · rw [expectedBinds_congr (emits_textures s4 _)]
      simp only [List.filterMap_append, hub, hb]
      simp [bindOf]
    · rw [drawCount_append, drawCount_append, hpre, drawCount_of_not_mem hd, ← hall]
      simp [drawCount]

/-- One `render` call of a pass, exactly: its bindings are those of the
channels it reaches, and it draws once when the pass is drawn and not at all
otherwise. -/
theorem render_exact (env : Env) (this : ShaderToy) (inp : Input) (c : BufferConf)
    (s : State) :
    ∃ l, (ShaderToy.render env this inp (some c) s).calls = s.calls ++ l
      ∧ l.filterMap bindOf
          = expectedBinds (ShaderToy.render env this inp (some c) s) 0 (reachedChannels env s c)
      ∧ drawCount l = if passDrawn env s c = true then 1 else 0 := by
  unfold ShaderToy.render
  simp only [emit_eq_emits]
  by_cases hf : c.fbo = 0
  · simp only [hf, ne_eq, not_true_eq_false, if_false]
    obtain ⟨l, hl, hb, hd⟩ := renderDraw_exact env this inp c (s.emits [.BindFramebuffer 0])
    have hfun : (fun t : TextureConf => loadable env (s.emits [.BindFramebuffer 0]) t.Path)
        = (fun t : TextureConf => loadable env s t.Path) := by
      funext t
      exact loadable_congr (emits_textures s _) t.Path
    rw [hfun] at hb hd
    refine ⟨[.BindFramebuffer 0] ++ l, ?_, ?_, ?_⟩
    · rw [hl]; simp [State.emits]
    · simp only [List.filterMap_append, hb, reachedChannels, hf, ne_eq, not_true_eq_false,
        false_and, if_false]
      simp [bindOf]
    · rw [drawCount_append, hd]
      simp [passDrawn, hf, drawCount]
  · simp only [ne_eq, hf, not_false_eq_true, if_true]
    obtain ⟨l0, hl0, hb0, hd0⟩ := LoadTexture_calls env c.name
      (s.emits [.BindFramebuffer c.fbo])
    have hiff := LoadTexture_ok_iff env c.name (s.emits [.BindFramebuffer c.fbo])
    rw [loadable_congr (emits_textures s [.BindFramebuffer c.fbo])] at hiff
    have hstab := fun p => loadable_LoadTexture env c.name p (s.emits [.BindFramebuffer c.fbo])
    rcases hr : TextureMgr.LoadTexture env c.name (s.emits [.BindFramebuffer c.fbo])
      with ⟨⟨tex, _ | err⟩, s2⟩
    · rw [hr] at hl0 hiff hstab
      simp only at hl0 hstab ⊢
      have hload : loadable env s c.name = true := hiff.mp rfl
      obtain ⟨l, hl, hb, hd⟩ := renderDraw_exact env this inp c
        (s2.emits [.TextureImage2DEXT tex (toInt32 inp.width) (toInt32 inp.height)])
      have hfun : (fun t : TextureConf => loadable env
            (s2.emits [.TextureImage2DEXT tex (toInt32 inp.width) (toInt32 inp.height)]) t.Path)
          = (fun t : TextureConf => loadable env s t.Path) := by
        funext t
        rw [loadable_congr (emits_textures s2 _), hstab,
          loadable_congr (emits_textures s [.BindFramebuffer c.fbo])]
      rw [hfun] at hb hd
      refine ⟨[.BindFramebuffer c.fbo] ++ l0
        ++ [.TextureImage2DEXT tex (toInt32 inp.width) (toInt32 inp.height)] ++ l, ?_, ?_, ?_⟩
      · rw [hl]; simp [State.emits, hl0]
      · simp only [List.filterMap_append, hb, hb0, reachedChannels, hload]
        simp [bindOf]
      · rw [drawCount_append, drawCount_append, drawCount_append, hd,
          drawCount_of_not_mem hd0]
        simp [passDrawn, hload, drawCount]
    · rw [hr] at hl0 hiff
      simp only at hl0 hiff ⊢
      have hload : loadable env s c.name = false := by
        cases hx : loadable env s c.name with
        | false => rfl
        | true => exact absurd (hiff.mpr hx) (by simp)
      refine ⟨[.BindFramebuffer c.fbo] ++ l0, ?_, ?_, ?_⟩
      · rw [hl0]; simp [State.emits]
      · simp only [List.filterMap_append, hb0, reachedChannels, hload]
        simp [bindOf, expectedBinds, hf]
      · rw [drawCount_append, drawCount_of_not_mem hd0]
        simp [passDrawn, hload, hf, drawCount]

/-- C8 (amended): in one `render` call of a pass the texture-unit bindings
are, in order, exactly those of the channels the call reaches, channel number
`i` being bound to unit `uint32(i)` with the texture the cache holds for its
path; the channels reached are those before the first one whose texture
does not load (none when the pass has a framebuffer and its own output
texture does not load). The call draws once when every texture loads and not
at all otherwise; when it draws, every configured channel has been bound,
however long the list is. When at most 4 channels are configured every bound
unit lies in 0..3. -/
theorem render_binds (env : Env) (this : ShaderToy) (inp : Input) (c : BufferConf)
    (s : State) :
    (newCalls s (ShaderToy.render env this inp (some c) s)).filterMap bindOf
        = expectedBinds (ShaderToy.render env this inp (some c) s) 0 (reachedChannels env s c)
      ∧ drawCount (newCalls s (ShaderToy.render env this inp (some c) s))
          = (if passDrawn env s c = true then 1 else 0)
      ∧ (passDrawn env s c = true →
          reachedChannels env s c = c.Textures
          ∧ ((newCalls s (ShaderToy.render env this inp (some c) s)).filterMap bindOf).length
              = c.Textures.length)
      ∧ (c.Textures.length ≤ 4 →
          ∀ b ∈ (newCalls s (ShaderToy.render env this inp (some c) s)).filterMap bindOf,
            b.1 < 4) := by
  obtain ⟨l, hl, hb, hd⟩ := render_exact env this inp c s
  rw [newCalls_of_append hl]
  have hreach : passDrawn env s c = true → reachedChannels env s c = c.Textures := by
    intro hp
    simp only [passDrawn, Bool.and_eq_true, Bool.or_eq_true, decide_eq_true_eq] at hp
    unfold reachedChannels
    have hno : ¬ (c.fbo ≠ 0 ∧ loadable env s c.name = false) := by
      rintro ⟨h1, h2⟩
      rcases hp.1 with h | h
      · exact h1 h
      · rw [h] at h2; cases h2
    rw [if_neg hno]
    exact takeWhile_of_all hp.2
  refine ⟨hb, hd, fun hp => ⟨hreach hp, ?_⟩, fun h4 b hmem => ?_⟩
  · rw [hb, expectedBinds_length, hreach hp]
  · rw [hb] at hmem
    refine expectedBinds_unit_lt _ _ 0 ?_ b hmem
    have hle : (reachedChannels env s c).length ≤ c.Textures.length := by
      unfold reachedChannels
      split
      · simp
      · exact (List.takeWhile_sublist _).length_le
    omega

theorem render_binds_witness :
    passDrawn demoEnv startState twoGoodChannels = true
    ∧ twoGoodChannels.Textures.length ≤ 4
    ∧ (newCalls startState
        (ShaderToy.render demoEnv demoToy demoInput (some twoGoodChannels)
          startState)).filterMap bindOf = [(0, 1), (1, 2)]
    ∧ drawCount (newCalls startState
        (ShaderToy.render demoEnv demoToy demoInput (some twoGoodChannels) startState)) = 1
    ∧ ((newCalls startState
        (ShaderToy.render demoEnv demoToy demoInput (some twoGoodChannels)
          startState)).filterMap bindOf).length = twoGoodChannels.Textures.length
    ∧ ∀ b ∈ (newCalls startState
          (ShaderToy.render demoEnv demoToy demoInput (some twoGoodChannels)
            startState)).filterMap bindOf, b.1 < 4 :=
  ⟨by decide, by decide,
    (render_binds demoEnv demoToy demoInput twoGoodChannels startState).1.trans (by decide),
    (render_binds demoEnv demoToy demoInput twoGoodChannels startState).2.1.trans (by decide),
    ((render_binds demoEnv demoToy demoInput twoGoodChannels startState).2.2.1 (by decide)).2,
    (render_binds demoEnv demoToy demoInput twoGoodChannels startState).2.2.2 (by decide)⟩

/-- C8 as stated fails: a pass with five configured channels binds five
texture units in one `render` call, the fifth being unit 4. -/
theorem render_binds_fifth_unit :
    fiveChannels.Textures.length = 5
    ∧ (newCalls startState
        (ShaderToy.render demoEnv demoToy demoInput (some fiveChannels) startState)).filterMap
          bindOf
      = [(0, 1), (1, 1), (2, 1), (3, 1), (4, 1)] := by
  decide

/-! ### Reload in the single-shader variant -/

theorem compileShader_calls (env : Env) (source : String) (k : ShaderKind) (s : State) :
    ∃ l, (compileShader env source k s).2.calls = s.calls ++ l
      ∧ ∀ c ∈ l, isShaderCall c = true := by
  unfold compileShader
  simp only [State.emit]
  split
  · exact ⟨_, by simp only [List.append_assoc]; rfl, by simp [isShaderCall]⟩
  · exact ⟨_, by simp only [List.append_assoc]; rfl, by simp [isShaderCall]⟩

/-- Building a program adds only shader-building calls to the log. -/
theorem newProgram_calls (env : Env) (v f : String) (s : State) :
    ∃ l, (newProgram env v f s).2.calls = s.calls ++ l
      ∧ ∀ c ∈ l, isShaderCall c = true := by
  obtain ⟨l1, h1, m1⟩ := compileShader_calls env v .VERTEX_SHADER s
  unfold newProgram
  rcases hv : compileShader env v .VERTEX_SHADER s with ⟨⟨vs, _ | err⟩, s1⟩
  · rw [hv] at h1
    simp only at h1 ⊢
    obtain ⟨l2, h2, m2⟩ := compileShader_calls env f .FRAGMENT_SHADER s1
    rcases hf : compileShader env f .FRAGMENT_SHADER s1 with ⟨⟨fs, _ | err⟩, s2⟩
    · rw [hf] at h2
      simp only at h2 ⊢
      cases hl : env.linkLog v f with
      | some log =>
        refine ⟨l1 ++ l2 ++ [.CreateProgram s2.nextObj, .AttachShader s2.nextObj vs,
          .AttachShader s2.nextObj fs, .LinkProgram s2.nextObj,
          .GetProgramInfoLog s2.nextObj], ?_, ?_⟩
        · simp [State.emit, h2, h1]
        · intro c hc
          simp only [List.mem_append, List.mem_cons, List.mem_nil_iff, or_false] at hc
          rcases hc with (hc | hc) | hc
          · exact m1 c hc
          · exact m2 c hc
          · rcases hc with rfl | rfl | rfl | rfl | rfl <;> rfl
      | none =>
        refine ⟨l1 ++ l2 ++ [.CreateProgram s2.nextObj, .AttachShader s2.nextObj vs,
          .AttachShader s2.nextObj fs, .LinkProgram s2.nextObj,
          .DeleteShader vs, .DeleteShader fs], ?_, ?_⟩
        · simp [State.emit, h2, h1]
        · intro c hc
          simp only [List.mem_append, List.mem_cons, List.mem_nil_iff, or_false] at hc
          rcases hc with (hc | hc) | hc
          · exact m1 c hc
          · exact m2 c hc
          · rcases hc with rfl | rfl | rfl | rfl | rfl | rfl <;> rfl
    · rw [hf] at h2
      simp only at h2 ⊢
      exact ⟨l1 ++ l2, by simp [h2, h1], fun c hc => by
        rcases List.mem_append.mp hc with hc | hc
        · exact m1 c hc
        · exact m2 c hc⟩
  · rw [hv] at h1
    exact ⟨l1, h1, m1⟩

/-- C11: when `loadShaderGL` of the single-shader variant fails in a reload
(the fragment file cannot be read, or it is read and `newProgram` fails on
the assembled text), the `program` field is what it was before the call; the mouse button callback
prints the error and stops there, leaving exactly the application and library
state that `loadShaderGL` left: `loadChan` is not run, so the channel
textures and channel declarations are unchanged, the start time is not reset,
and the only calls added to the log are shader-building calls. -/
theorem reload_failure_keeps_state (env : Env) (now : Int) (this this1 : Impl.ShaderToy)
    (s s1 : State) (e : String)
    (h : Impl.ShaderToy.loadShaderGL env this s = (some e, this1, s1)) :
    this1.program = this.program
      ∧ this1.channels = this.channels
      ∧ this1.channelStr = this.channelStr
      ∧ this1.startTime = this.startTime
      ∧ Impl.mouseButtonCallback env now Impl.MouseButtonRight this s = ([e], this1, s1)
      ∧ (∀ c ∈ newCalls s s1, isShaderCall c = true)
      ∧ ((env.readFile this.wConf.FragmentPath = .error e ∧ this1 = this ∧ s1 = s)
          ∨ ∃ content, env.readFile this.wConf.FragmentPath = .ok content
              ∧ (newProgram env this.vertexShader
                  (Impl.fragmentHeader ++ "\n".intercalate this.channelStr ++ Impl.fragmentOut
                    ++ content ++ Impl.fragmentMain) s).1.2 = some e) := by
  have hcb : Impl.mouseButtonCallback env now Impl.MouseButtonRight this s = ([e], this1, s1) := by
    simp only [Impl.mouseButtonCallback, if_true, h]
  unfold Impl.ShaderToy.loadShaderGL at h
  cases hf : env.readFile this.wConf.FragmentPath with
  | error err =>
    simp only [hf, Prod.mk.injEq, Option.some.injEq] at h
    obtain ⟨rfl, rfl, rfl⟩ := h
    exact ⟨rfl, rfl, rfl, rfl, hcb, by simp [newCalls], Or.inl ⟨rfl, rfl, rfl⟩⟩
  | ok content =>
    simp only [hf] at h
    obtain ⟨l, hl, hm⟩ := newProgram_calls env this.vertexShader
      (Impl.fragmentHeader ++ "\n".intercalate this.channelStr ++ Impl.fragmentOut
        ++ content ++ Impl.fragmentMain) s
    rcases hp : newProgram env this.vertexShader
        (Impl.fragmentHeader ++ "\n".intercalate this.channelStr ++ Impl.fragmentOut
          ++ content ++ Impl.fragmentMain) s with ⟨⟨program, _ | err⟩, s2⟩
    · simp [hp] at h
    · rw [hp] at hl
      simp only [hp, Prod.mk.injEq, Option.some.injEq] at h
      obtain ⟨rfl, rfl, rfl⟩ := h
      refine ⟨rfl, rfl, rfl, rfl, hcb, ?_, Or.inr ⟨content, rfl, by rw [hp]⟩⟩
      rw [newCalls_of_append hl]
      exact hm

theorem reload_failure_keeps_state_witness :
    (Impl.ShaderToy.loadShaderGL badCompileEnv runningToy runningState).1
        = some ("failed to compile "
            ++ (Impl.ShaderToy.loadShaderGL badCompileEnv runningToy runningState).2.1.fragmentShader
            ++ ": " ++ "0(12) : error C0000: syntax error")
    ∧ (Impl.mouseButtonCallback badCompileEnv 500 Impl.MouseButtonRight runningToy
        runningState).2.1.program = 7
    ∧ (Impl.mouseButtonCallback badCompileEnv 500 Impl.MouseButtonRight runningToy
        runningState).2.1.channels = [3]
    ∧ (Impl.mouseButtonCallback badCompileEnv 500 Impl.MouseButtonRight runningToy
        runningState).2.1.startTime = 100 := by
  have h := reload_failure_keeps_state badCompileEnv 500 runningToy
    (Impl.ShaderToy.loadShaderGL badCompileEnv runningToy runningState).2.1
    runningState
    (Impl.ShaderToy.loadShaderGL badCompileEnv runningToy runningState).2.2
    ("failed to compile "
      ++ (Impl.ShaderToy.loadShaderGL badCompileEnv runningToy runningState).2.1.fragmentShader
      ++ ": " ++ "0(12) : error C0000: syntax error") rfl
  refine ⟨rfl, ?_, ?_, ?_⟩
  · rw [h.2.2.2.2.1]; exact h.1
  · rw [h.2.2.2.2.1]; exact h.2.1
  · rw [h.2.2.2.2.1]; exact h.2.2.2.1

/-! ### One texture per pipeline buffer -/

theorem later_refl (s : State) : later s s :=
  ⟨⟨[], by simp⟩, fun _ _ h => h, le_refl _⟩

theorem later_trans {a b c : State} (h1 : later a b) (h2 : later b c) : later a c := by
  obtain ⟨⟨l1, e1⟩, k1, f1⟩ := h1
  obtain ⟨⟨l2, e2⟩, k2, f2⟩ := h2
  exact ⟨⟨l1 ++ l2, by rw [e2, e1, List.append_assoc]⟩, fun k h hk => k2 k h (k1 k h hk),
    le_trans f1 f2⟩

theorem later_emits (s : State) (l : List GLCall) : later s (s.emits l) :=
  ⟨⟨l, rfl⟩, fun _ _ h => h, le_refl _⟩

theorem mem_newCalls_of_later {s0 a b s : State} {c : GLCall} (h0 : later s0 a)
    (h1 : later a b) (h2 : later b s) (hc : c ∈ newCalls a b) : c ∈ newCalls s0 s := by
  obtain ⟨⟨l0, e0⟩, -, -⟩ := h0
  obtain ⟨⟨l1, e1⟩, -, -⟩ := h1
  obtain ⟨⟨l2, e2⟩, -, -⟩ := h2
  rw [newCalls_of_append e1] at hc
  have : s.calls = s0.calls ++ (l0 ++ l1 ++ l2) := by
    rw [e2, e1, e0]; simp only [List.append_assoc]
  rw [newCalls_of_append this]
  simp [hc]

theorem newTextureEx_nextFbo (env : Env) (file : String) (s : State) :
    (newTextureEx env file s).2.nextFbo = s.nextFbo := by
  unfold newTextureEx
  split
  · rfl
  · rfl
  · simp only [State.emit]
    split <;> rfl

theorem LoadTexture_nextFbo (env : Env) (name : String) (s : State) :
    (TextureMgr.LoadTexture env name s).2.nextFbo = s.nextFbo := by
  unfold TextureMgr.LoadTexture
  split
  · rfl
  · split
    · rfl
    · have h := newTextureEx_nextFbo env name s
      rcases hr : newTextureEx env name s with ⟨⟨tex, _ | e⟩, s1⟩
      · rw [hr] at h; exact h
      · rw [hr] at h; exact h

theorem LoadTexture_later (env : Env) (name : String) (s : State) :
    later s (TextureMgr.LoadTexture env name s).2 := by
  obtain ⟨l, hl, -, -⟩ := LoadTexture_calls env name s
  exact ⟨⟨l, hl⟩, fun _ _ h => LoadTexture_keeps h, le_of_eq (LoadTexture_nextFbo env name s).symm⟩

theorem loadChannelTextures_later (env : Env) (cs : List TextureConf) :
    ∀ (s : State), later s (loadChannelTextures env cs s).2 := by
  induction cs with
  | nil => intro s; exact later_refl s
  | cons c rest ih =>
    intro s
    have h1 := LoadTexture_later env c.Path s
    rcases hr : TextureMgr.LoadTexture env c.Path s with ⟨⟨tex, _ | err⟩, s1⟩
    · rw [hr] at h1
      simp only [loadChannelTextures, hr]
      exact later_trans h1 (ih s1)
    · rw [hr] at h1
      simp only [loadChannelTextures, hr]
      exact h1

theorem compileShader_nextFbo (env : Env) (source : String) (k : ShaderKind) (s : State) :
    (compileShader env source k s).2.nextFbo = s.nextFbo := by
  unfold compileShader
  simp only
  split <;> rfl

theorem newProgram_nextFbo (env : Env) (v f : String) (s : State) :
    (newProgram env v f s).2.nextFbo = s.nextFbo := by
  unfold newProgram
  have h1 := compileShader_nextFbo env v .VERTEX_SHADER s
  split
  · rename_i heq; rw [heq] at h1; exact h1
  · rename_i vs s1 heq
    rw [heq] at h1
    have h2 := compileShader_nextFbo env f .FRAGMENT_SHADER s1
    split
    · rename_i heq2; rw [heq2] at h2; simp only at h1 h2 ⊢; rw [h2, h1]
    · rename_i fs s2 heq2
      rw [heq2] at h2
      simp only at h1 h2 ⊢
      split <;> simp only [State.emit, h2, h1]

theorem newProgram_later (env : Env) (v f : String) (s : State) :
    later s (newProgram env v f s).2 := by
  obtain ⟨l, hl, -⟩ := newProgram_calls env v f s
  refine ⟨⟨l, hl⟩, fun k h hk => ?_, le_of_eq (newProgram_nextFbo env v f s).symm⟩
  rw [newProgram_textures]; exact hk

theorem BufferConf_init_later (env : Env) (c : BufferConf) (common : String) (s : State) :
    later s (BufferConf.init env c common s).2.2 := by
  unfold BufferConf.init
  have h1 := loadChannelTextures_later env c.Textures s
  rcases hr : loadChannelTextures env c.Textures s with ⟨_ | err, s1⟩
  · rw [hr] at h1
    simp only at h1 ⊢
    cases hf : env.readFile c.Path with
    | error e => exact h1
    | ok content =>
      simp only
      have h2 := newProgram_later env vertexShaderText (fragmentShaderText common content) s1
      rcases hp : newProgram env vertexShaderText (fragmentShaderText common content) s1
        with ⟨⟨program, _ | err⟩, s2⟩
      · rw [hp] at h2; exact later_trans h1 h2
      · rw [hp] at h2; exact later_trans h1 h2
  · rw [hr] at h1
    exact h1

/-- A successful `initBuffer` on a configured pass names it, gives it a
fresh framebuffer and attaches to it the texture cached under its name. -/
theorem initBuffer_attach {env : Env} {common name : String} {o o1 : Option BufferConf}
    {s s1 : State} (h : initBuffer env common o name s = (none, o1, s1)) :
    later s s1 ∧ ∀ c1, o1 = some c1 →
      c1.name = name ∧ s.nextFbo ≤ c1.fbo
        ∧ ∃ H, s1.textures.lookup name = some H
          ∧ GLCall.NamedFramebufferTexture c1.fbo H ∈ newCalls s s1 := by
  cases o with
  | none =>
    simp only [initBuffer, Prod.mk.injEq, true_and] at h
    obtain ⟨rfl, rfl⟩ := h
    exact ⟨later_refl _, by simp⟩
  | some c =>
    unfold initBuffer at h
    have hl0 := BufferConf_init_later env c common s
    rcases hr : BufferConf.init env c common s with ⟨_ | err, c1, s2⟩
    · rw [hr] at hl0
      simp only at hl0
      simp only [hr, emit_eq_emits] at h
      have hl1 := LoadTexture_later env name
        ({ s2 with nextFbo := s2.nextFbo + 1 }.emits [.CreateFramebuffers s2.nextFbo])
      rcases hl : TextureMgr.LoadTexture env name
          ({ s2 with nextFbo := s2.nextFbo + 1 }.emits [.CreateFramebuffers s2.nextFbo])
        with ⟨⟨tex, _ | err⟩, s3⟩
      · rw [hl] at hl1
        simp only [hl, Prod.mk.injEq, true_and] at h
        obtain ⟨rfl, rfl⟩ := h
        have hstep : later s2
            ({ s2 with nextFbo := s2.nextFbo + 1 }.emits [.CreateFramebuffers s2.nextFbo]) :=
          ⟨⟨[.CreateFramebuffers s2.nextFbo], rfl⟩, fun _ _ h => h, Nat.le_succ _⟩
        have hmid := later_trans hl0 (later_trans hstep hl1)
        have hend := later_emits s3 [.NamedFramebufferTexture s2.nextFbo tex]
        refine ⟨later_trans hmid hend, ?_⟩
        intro c2 hc2
        simp only [Option.some.injEq] at hc2
        subst hc2
        refine ⟨rfl, hl0.2.2, tex,
          (LoadTexture_caches hl : s3.textures.lookup name = some tex), ?_⟩
        exact mem_newCalls_of_later hmid hend (later_refl _)
          (by rw [newCalls_emits]; simp)
      · simp [hl] at h
    · simp [hr] at h

/-- What a successful `PipelineConf.init` with an Image pass has run. -/
theorem init_success_inv {env : Env} {p p1 : PipelineConf} {s s1 : State}
    (h : PipelineConf.init env p s = (none, p1, s1)) (himg : p.Image ≠ none) :
    ∃ common image im1 sI a sA b sB c sC d,
      p.Image = some image
      ∧ BufferConf.init env image common s = (none, im1, sI)
      ∧ initBuffer env common p.Buffer_A "buffer_a" sI = (none, a, sA)
      ∧ initBuffer env common p.Buffer_B "buffer_b" sA = (none, b, sB)
      ∧ initBuffer env common p.Buffer_C "buffer_c" sB = (none, c, sC)
      ∧ initBuffer env common p.Buffer_D "buffer_d" sC = (none, d, s1)
      ∧ p1 = { Buffer_A := a, Buffer_B := b, Buffer_C := c, Buffer_D := d,
               Image := some im1, Common := p.Common } := by
  unfold PipelineConf.init at h
  simp only at h
  split at h
  · simp at h
  · rename_i commonStr _
    cases hI : p.Image with
    | none => exact absurd hI himg
    | some image =>
      simp only [hI] at h
      rcases hr : BufferConf.init env image commonStr s with ⟨_ | err, im1, sI⟩
      · simp only [hr] at h
        rcases ha : initBuffer env commonStr p.Buffer_A "buffer_a" sI with ⟨_ | err, a, sA⟩
        · simp only [ha] at h
          rcases hb : initBuffer env commonStr p.Buffer_B "buffer_b" sA with ⟨_ | err, b, sB⟩
          · simp only [hb] at h
            rcases hc : initBuffer env commonStr p.Buffer_C "buffer_c" sB with ⟨_ | err, c, sC⟩
            · simp only [hc] at h
              rcases hd : initBuffer env commonStr p.Buffer_D "buffer_d" sC with ⟨_ | err, d, sD⟩
              · simp only [hd, Prod.mk.injEq, true_and] at h
                obtain ⟨rfl, rfl⟩ := h
                exact ⟨commonStr, image, im1, sI, a, sA, b, sB, c, sC, d, rfl, hr, ha, hb, hc,
                  hd, rfl⟩
              · simp [hd] at h
            · simp [hc] at h
          · simp [hb] at h
        · simp [ha] at h
      · simp [hr] at h

/-- After a successful `PipelineConf.init` with an Image pass, the buffer pass
of step `k` carries its reserved name, and the texture cached under that name
is the one attached to its framebuffer during `init`. -/
theorem init_buffer_texture {env : Env} {p p1 : PipelineConf} {s s1 : State}
    (h : PipelineConf.init env p s = (none, p1, s1)) (himg : p.Image ≠ none)
    {k : Nat} (hk : 2 ≤ k) {x : BufferConf} (hx : passAt p1 k = some x) :
    x.name = reservedName k ∧ s.nextFbo ≤ x.fbo
      ∧ ∃ H, s1.textures.lookup (reservedName k) = some H
        ∧ GLCall.NamedFramebufferTexture x.fbo H ∈ newCalls s s1 := by
  obtain ⟨common, image, im1, sI, a, sA, b, sB, c, sC, d, -, hi, ha, hb, hc, hd, rfl⟩ :=
    init_success_inv h himg
  have lI : later s sI := by
    have := BufferConf_init_later env image common s
    rwa [hi] at this
  obtain ⟨lA, rA⟩ := initBuffer_attach ha
  obtain ⟨lB, rB⟩ := initBuffer_attach hb
  obtain ⟨lC, rC⟩ := initBuffer_attach hc
  obtain ⟨lD, rD⟩ := initBuffer_attach hd
  match k, hk, hx with
  | 2, _, hx =>
    simp only [passAt] at hx
    obtain ⟨hn, hf, H, hH, hm⟩ := rA x hx
    have lrest := later_trans lB (later_trans lC lD)
    exact ⟨hn, le_trans lI.2.2 hf, H, lrest.2.1 _ _ hH, mem_newCalls_of_later lI lA lrest hm⟩
  | 3, _, hx =>
    simp only [passAt] at hx
    obtain ⟨hn, hf, H, hH, hm⟩ := rB x hx
    have lrest := later_trans lC lD
    have lpre := later_trans lI lA
    exact ⟨hn, le_trans lpre.2.2 hf, H, lrest.2.1 _ _ hH, mem_newCalls_of_later lpre lB lrest hm⟩
  | 4, _, hx =>
    simp only [passAt] at hx
    obtain ⟨hn, hf, H, hH, hm⟩ := rC x hx
    have lpre := later_trans lI (later_trans lA lB)
    exact ⟨hn, le_trans lpre.2.2 hf, H, lD.2.1 _ _ hH, mem_newCalls_of_later lpre lC lD hm⟩
  | 5, _, hx =>
    simp only [passAt] at hx
    obtain ⟨hn, hf, H, hH, hm⟩ := rD x hx
    have lpre := later_trans lI (later_trans lA (later_trans lB lC))
    exact ⟨hn, le_trans lpre.2.2 hf, H, hH,
      mem_newCalls_of_later lpre lD (later_refl _) hm⟩
  | k + 6, _, hx => simp [passAt] at hx

theorem newCalls_trans {a b c : State} (h1 : later a b) (h2 : later b c) :
    newCalls a c = newCalls a b ++ newCalls b c := by
  obtain ⟨⟨l1, e1⟩, -, -⟩ := h1
  obtain ⟨⟨l2, e2⟩, -, -⟩ := h2
  have e3 : c.calls = a.calls ++ (l1 ++ l2) := by rw [e2, e1, List.append_assoc]
  rw [newCalls_of_append e1, newCalls_of_append e2, newCalls_of_append e3]

theorem filterMap_attach_of_shader {l : List GLCall} (h : ∀ c ∈ l, isShaderCall c = true) :
    l.filterMap attachOf = [] := by
  induction l with
  | nil => rfl
  | cons c rest ih =>
    have hc := h c (List.mem_cons_self _ _)
    have hr := ih (fun d hd => h d (List.mem_cons_of_mem _ hd))
    cases c <;> simp_all [isShaderCall, attachOf]

theorem newTextureEx_noAttach (env : Env) (file : String) (s : State) :
    (newCalls s (newTextureEx env file s).2).filterMap attachOf = [] := by
  unfold newTextureEx
  split
  · simp [newCalls]
  · simp [newCalls]
  · simp only [ne_eq, mul_comm, not_true_eq_false, if_false]
    simp [newCalls, State.emit, attachOf]

theorem LoadTexture_noAttach (env : Env) (name : String) (s : State) :
    (newCalls s (TextureMgr.LoadTexture env name s).2).filterMap attachOf = [] := by
  unfold TextureMgr.LoadTexture
  split
  · simp [newCalls]
  · split
    · simp [newCalls, State.emit, attachOf]
    · have h := newTextureEx_noAttach env name s
      rcases hr : newTextureEx env name s with ⟨⟨tex, _ | e⟩, s1⟩
      · rw [hr] at h; exact h
      · rw [hr] at h; exact h

theorem loadChannelTextures_noAttach (env : Env) (cs : List TextureConf) :
    ∀ (s : State),
      (newCalls s (loadChannelTextures env cs s).2).filterMap attachOf = [] := by
  induction cs with
  | nil => intro s; simp [loadChannelTextures, newCalls]
  | cons c rest ih =>
    intro s
    have h1 := LoadTexture_noAttach env c.Path s
    have l1 := LoadTexture_later env c.Path s
    rcases hr : TextureMgr.LoadTexture env c.Path s with ⟨⟨tex, _ | err⟩, s1⟩
    · rw [hr] at h1 l1
      simp only [loadChannelTextures, hr]
      rw [newCalls_trans l1 (loadChannelTextures_later env rest s1), List.filterMap_append, h1,
        ih s1]
      rfl
    · rw [hr] at h1
      simp only [loadChannelTextures, hr]
      exact h1

theorem newProgram_noAttach (env : Env) (v f : String) (s : State) :
    (newCalls s (newProgram env v f s).2).filterMap attachOf = [] := by
  obtain ⟨l, hl, hm⟩ := newProgram_calls env v f s
  rw [newCalls_of_append hl]
  exact filterMap_attach_of_shader hm

theorem BufferConf_init_noAttach (env : Env) (c : BufferConf) (common : String) (s : State) :
    (newCalls s (BufferConf.init env c common s).2.2).filterMap attachOf = [] := by
  unfold BufferConf.init
  have h1 := loadChannelTextures_noAttach env c.Textures s
  have l1 := loadChannelTextures_later env c.Textures s
  rcases hr : loadChannelTextures env c.Textures s with ⟨_ | err, s1⟩
  · rw [hr] at h1 l1
    simp only at h1 l1 ⊢
    cases hf : env.readFile c.Path with
    | error e => exact h1
    | ok content =>
      simp only
      have h2 := newProgram_noAttach env vertexShaderText (fragmentShaderText common content) s1
      have l2 := newProgram_later env vertexShaderText (fragmentShaderText common content) s1
      rcases hp : newProgram env vertexShaderText (fragmentShaderText common content) s1
        with ⟨⟨program, _ | err⟩, s2⟩
      · rw [hp] at h2 l2
        simp only at h2 l2 ⊢
        rw [newCalls_trans l1 l2, List.filterMap_append, h1, h2]
        rfl
      · rw [hp] at h2 l2
        simp only at h2 l2 ⊢
        rw [newCalls_trans l1 l2, List.filterMap_append, h1, h2]
        rfl
  · rw [hr] at h1
    exact h1

/-- A successful `initBuffer` makes exactly one attachment when the pass is
configured, of the texture cached under its name to its fresh framebuffer,
and none otherwise. -/
theorem initBuffer_attach_exact {env : Env} {common name : String} {o o1 : Option BufferConf}
    {s s1 : State} (h : initBuffer env common o name s = (none, o1, s1)) :
    (newCalls s s1).filterMap attachOf
        = o1.toList.map (fun c => (c.fbo, (s1.textures.lookup name).getD 0))
      ∧ ∀ c1, o1 = some c1 → c1.fbo < s1.nextFbo := by
  cases o with
  | none =>
    simp only [initBuffer, Prod.mk.injEq, true_and] at h
    obtain ⟨rfl, rfl⟩ := h
    exact ⟨by simp [newCalls], by simp⟩
  | some c =>
    unfold initBuffer at h
    have hl0 := BufferConf_init_later env c common s
    have ha0 := BufferConf_init_noAttach env c common s
    rcases hr : BufferConf.init env c common s with ⟨_ | err, c1, s2⟩
    · rw [hr] at hl0 ha0
      simp only at hl0 ha0
      simp only [hr, emit_eq_emits] at h
      have hl1 := LoadTexture_later env name
        ({ s2 with nextFbo := s2.nextFbo + 1 }.emits [.CreateFramebuffers s2.nextFbo])
      have ha1 := LoadTexture_noAttach env name
        ({ s2 with nextFbo := s2.nextFbo + 1 }.emits [.CreateFramebuffers s2.nextFbo])
      have hn1 := LoadTexture_nextFbo env name
        ({ s2 with nextFbo := s2.nextFbo + 1 }.emits [.CreateFramebuffers s2.nextFbo])
      rcases hl : TextureMgr.LoadTexture env name
          ({ s2 with nextFbo := s2.nextFbo + 1 }.emits [.CreateFramebuffers s2.nextFbo])
        with ⟨⟨tex, _ | err⟩, s3⟩
      · rw [hl] at hl1 ha1 hn1
        simp only at hl1 ha1 hn1
        simp only [hl, Prod.mk.injEq, true_and] at h
        obtain ⟨rfl, rfl⟩ := h
        have hstep : later s2
            ({ s2 with nextFbo := s2.nextFbo + 1 }.emits [.CreateFramebuffers s2.nextFbo]) :=
          ⟨⟨[.CreateFramebuffers s2.nextFbo], rfl⟩, fun _ _ h => h, Nat.le_succ _⟩
        have hend := later_emits s3 [.NamedFramebufferTexture s2.nextFbo tex]
        have hstepCalls : newCalls s2
            ({ s2 with nextFbo := s2.nextFbo + 1 }.emits [.CreateFramebuffers s2.nextFbo])
            = [.CreateFramebuffers s2.nextFbo] := newCalls_of_append rfl
        have htex : s3.textures.lookup name = some tex := LoadTexture_caches hl
        refine ⟨?_, ?_⟩
        · rw [newCalls_trans hl0 (later_trans hstep (later_trans hl1 hend)),
            newCalls_trans hstep (later_trans hl1 hend), newCalls_trans hl1 hend,
            newCalls_emits, hstepCalls]
          simp only [List.filterMap_append, ha0, ha1, emits_textures, htex]
          simp [attachOf]
        · intro c2 hc2
          simp only [Option.some.injEq] at hc2
          subst hc2
          show s2.nextFbo < s3.nextFbo
          rw [hn1]
          exact Nat.lt_succ_self _
      · simp [hl] at h
    · simp [hr] at h

theorem attach_filter_none {o : Option BufferConf} {t f : Nat}
    (h : ∀ c, o = some c → c.fbo ≠ f) :
    (o.toList.map (fun c => (c.fbo, t))).filter (fun q => decide (q.1 = f)) = [] := by
  cases o with
  | none => rfl
  | some c => simp [h c rfl]

/-- After a successful `PipelineConf.init` with an Image pass, the
attachments that `init` made to the framebuffer of the buffer pass of step
`k` are exactly one: the texture cached under its reserved name. -/
theorem init_attach_exact {env : Env} {p p1 : PipelineConf} {s s1 : State}
    (h : PipelineConf.init env p s = (none, p1, s1)) (himg : p.Image ≠ none)
    {k : Nat} (hk : 2 ≤ k) {x : BufferConf} (hx : passAt p1 k = some x) {H : Nat}
    (hH : s1.textures.lookup (reservedName k) = some H) :
    ((newCalls s s1).filterMap attachOf).filter (fun q => decide (q.1 = x.fbo))
      = [(x.fbo, H)] := by
  obtain ⟨common, image, im1, sI, a, sA, b, sB, c, sC, d, -, hi, ha, hb, hc, hd, rfl⟩ :=
    init_success_inv h himg
  have lI : later s sI := by
    have := BufferConf_init_later env image common s
    rwa [hi] at this
  have aI : (newCalls s sI).filterMap attachOf = [] := by
    have := BufferConf_init_noAttach env image common s
    rwa [hi] at this
  obtain ⟨lA, rA⟩ := initBuffer_attach ha
  obtain ⟨lB, rB⟩ := initBuffer_attach hb
  obtain ⟨lC, rC⟩ := initBuffer_attach hc
  obtain ⟨lD, rD⟩ := initBuffer_attach hd
  obtain ⟨eA, uA⟩ := initBuffer_attach_exact ha
  obtain ⟨eB, uB⟩ := initBuffer_attach_exact hb
  obtain ⟨eC, uC⟩ := initBuffer_attach_exact hc
  obtain ⟨eD, uD⟩ := initBuffer_attach_exact hd
  have fA := lA.2.2
  have fB := lB.2.2
  have fC := lC.2.2
  have fD := lD.2.2
  rw [newCalls_trans lI (later_trans lA (later_trans lB (later_trans lC lD))),
    newCalls_trans lA (later_trans lB (later_trans lC lD)),
    newCalls_trans lB (later_trans lC lD), newCalls_trans lC lD]
  simp only [List.filterMap_append, aI, eA, eB, eC, eD, List.nil_append, List.filter_append]
  match k, hk, hx, hH with
  | 2, _, hx, hH =>
    simp only [passAt] at hx
    simp only [reservedName] at hH
    obtain ⟨-, -, H1, hH1, -⟩ := rA x hx
    have hsame : H1 = H := by
      have := (later_trans lB (later_trans lC lD)).2.1 _ _ hH1
      rw [hH] at this
      exact (Option.some.inj this).symm
    have hxu := uA x hx
    rw [attach_filter_none (o := b) (fun y hy => by have := (rB y hy).2.1; omega),
      attach_filter_none (o := c) (fun y hy => by have := (rC y hy).2.1; omega),
      attach_filter_none (o := d) (fun y hy => by have := (rD y hy).2.1; omega)]
    simp [hx, hH1, hsame]
  | 3, _, hx, hH =>
    simp only [passAt] at hx
    simp only [reservedName] at hH
    obtain ⟨-, hlo, H1, hH1, -⟩ := rB x hx
    have hsame : H1 = H := by
      have := (later_trans lC lD).2.1 _ _ hH1
      rw [hH] at this
      exact (Option.some.inj this).symm
    have hxu := uB x hx
    rw [attach_filter_none (o := a) (fun y hy => by have := uA y hy; omega),
      attach_filter_none (o := c) (fun y hy => by have := (rC y hy).2.1; omega),
      attach_filter_none (o := d) (fun y hy => by have := (rD y hy).2.1; omega)]
    simp [hx, hH1, hsame]
  | 4, _, hx, hH =>
    simp only [passAt] at hx
    simp only [reservedName] at hH
    obtain ⟨-, hlo, H1, hH1, -⟩ := rC x hx
    have hsame : H1 = H := by
      have := lD.2.1 _ _ hH1
      rw [hH] at this
      exact (Option.some.inj this).symm
    have hxu := uC x hx
    rw [attach_filter_none (o := a) (fun y hy => by have := uA y hy; omega),
      attach_filter_none (o := b) (fun y hy => by have := uB y hy; omega),
      attach_filter_none (o := d) (fun y hy => by have := (rD y hy).2.1; omega)]
    simp [hx, hH1, hsame]
  | 5, _, hx, hH =>
    simp only [passAt] at hx
    simp only [reservedName] at hH
    obtain ⟨-, hlo, H1, hH1, -⟩ := rD x hx
    have hsame : H1 = H := by
      rw [hH] at hH1
      exact (Option.some.inj hH1).symm
    rw [attach_filter_none (o := a) (fun y hy => by have := uA y hy; omega),
      attach_filter_none (o := b) (fun y hy => by have := uB y hy; omega),
      attach_filter_none (o := c) (fun y hy => by have := uC y hy; omega)]
    simp [hx, hH1, hsame]
  | k + 6, _, hx, _ => simp [passAt] at hx


theorem uniformCalls_no_resize (env : Env) (inp : Input) (program : Nat) :
    (uniformCalls env inp program).filterMap resizeOf = [] := by
  unfold uniformCalls
  split_ifs <;> simp [resizeOf]

theorem uniformCalls_no_attach (env : Env) (inp : Input) (program : Nat) :
    (uniformCalls env inp program).filterMap attachOf = [] := by
  unfold uniformCalls
  split_ifs <;> simp [attachOf]

theorem bindChannels_ready_binds (env : Env) (cs : List TextureConf) :
    ∀ (i : Nat) (s : State), (∀ t ∈ cs, cached s t.Path) →
      ∃ l, bindChannels env i cs s = (true, s.emits l)
        ∧ l.filterMap bindOf = expectedBinds s i cs ∧ l.filterMap resizeOf = []
        ∧ l.filterMap attachOf = [] := by
  induction cs with
  | nil =>
    intro i s _
    exact ⟨[], by simp [bindChannels, emits_nil], rfl, rfl, rfl⟩
  | cons conf rest ih =>
    intro i s hc
    obtain ⟨v, hv⟩ := cached_lookup (hc conf (List.mem_cons_self _ _))
    have hrest : ∀ t ∈ rest, cached s t.Path := fun t ht => hc t (List.mem_cons_of_mem _ ht)
    obtain ⟨l, hl, hb, hr, hat⟩ := ih (i + 1) (s.emits (channelCalls v i conf))
      (fun t ht => cached_emits _ (hrest t ht))
    refine ⟨channelCalls v i conf ++ l, ?_, ?_, ?_, ?_⟩
    · rw [bindChannels_cons_hit env i conf rest hv, hl, emits_emits]
    · rw [List.filterMap_append, hb,
        expectedBinds_congr (emits_textures s (channelCalls v i conf))]
      simp [channelCalls, bindOf, expectedBinds, hv]
    · rw [List.filterMap_append, hr]
      simp [channelCalls, resizeOf]
    · rw [List.filterMap_append, hat]
      simp [channelCalls, attachOf]

theorem renderDraw_ready_binds (env : Env) (this : ShaderToy) (inp : Input) (c : BufferConf)
    (s : State) (hc : ∀ t ∈ c.Textures, cached s t.Path) :
    ∃ l, renderDraw env this inp c s = s.emits l
      ∧ l.filterMap bindOf = expectedBinds s 0 c.Textures ∧ l.filterMap resizeOf = []
      ∧ l.filterMap attachOf = [] := by
  obtain ⟨l, hl, hb, hr, hat⟩ := bindChannels_ready_binds env c.Textures 0
    (s.emits ([.Clear, .UseProgram c.program] ++ uniformCalls env inp c.program))
    (fun t ht => cached_emits _ (hc t ht))
  refine ⟨([.Clear, .UseProgram c.program] ++ uniformCalls env inp c.program) ++ l
    ++ [.BindVertexArray this.vao, .DrawElements], ?_, ?_, ?_, ?_⟩
  · rw [renderDraw_eq, hl]
    simp only [emits_emits]
  · rw [expectedBinds_congr (emits_textures s _)] at hb
    simp only [List.filterMap_append, hb, (uniformCalls_no_bind env inp c.program).1]
    simp [bindOf]
  · simp only [List.filterMap_append, hr, uniformCalls_no_resize]
    simp [resizeOf]
  · simp only [List.filterMap_append, hat, uniformCalls_no_attach]
    simp [attachOf]

/-- A ready pass, rendered: the state only gains calls, every channel is
bound to the unit of its index with its cached texture, and the only texture
resized is the one cached under the name of the pass, when it has a
framebuffer. -/
theorem render_ready_binds (env : Env) (this : ShaderToy) (inp : Input) (c : BufferConf)
    (s : State) (hr : passReady s c) :
    ∃ l, ShaderToy.render env this inp (some c) s = s.emits l
      ∧ l.filterMap bindOf = expectedBinds s 0 c.Textures
      ∧ l.filterMap resizeOf
          = (if c.fbo ≠ 0 then [(s.textures.lookup c.name).getD 0] else [])
      ∧ l.filterMap attachOf = [] := by
  obtain ⟨hch, hname⟩ := hr
  unfold ShaderToy.render
  simp only [emit_eq_emits]
  by_cases hf : c.fbo = 0
  · obtain ⟨l, hl, hb, hrz, hat⟩ := renderDraw_ready_binds env this inp c
      (s.emits [.BindFramebuffer c.fbo]) (fun t ht => cached_emits _ (hch t ht))
    refine ⟨[.BindFramebuffer c.fbo] ++ l, ?_, ?_, ?_, ?_⟩
    · simp only [hf, ne_eq, not_true_eq_false, if_false]
      rw [hf] at hl
      rw [hl, emits_emits]
    · rw [expectedBinds_congr (emits_textures s _)] at hb
      simp [List.filterMap_append, hb, bindOf]
    · simp [List.filterMap_append, hrz, resizeOf, hf]
    · simp [List.filterMap_append, hat, attachOf]
  · obtain ⟨v, hv⟩ := cached_lookup (hname hf)
    have hv2 : (s.emits [GLCall.BindFramebuffer c.fbo]).textures.lookup c.name = some v := hv
    obtain ⟨l, hl, hb, hrz, hat⟩ := renderDraw_ready_binds env this inp c
      ((s.emits [.BindFramebuffer c.fbo]).emits
        [.TextureImage2DEXT v (toInt32 inp.width) (toInt32 inp.height)])
      (fun t ht => cached_emits _ (cached_emits _ (hch t ht)))
    refine ⟨[.BindFramebuffer c.fbo]
      ++ ([.TextureImage2DEXT v (toInt32 inp.width) (toInt32 inp.height)] ++ l), ?_, ?_, ?_, ?_⟩
    · simp only [ne_eq, hf, not_false_eq_true, if_true, LoadTexture_hit hv2]
      rw [hl]
      simp only [emits_emits, List.append_assoc]
    · rw [expectedBinds_congr (show ((s.emits [GLCall.BindFramebuffer c.fbo]).emits
          [.TextureImage2DEXT v (toInt32 inp.width) (toInt32 inp.height)]).textures
          = s.textures from rfl)] at hb
      simp [List.filterMap_append, hb, bindOf]
    · simp [List.filterMap_append, hrz, resizeOf, hf, hv]
    · simp [List.filterMap_append, hat, attachOf]

theorem expectedBinds_get (final : State) (cs : List TextureConf) :
    ∀ (j i : Nat) (t : TextureConf), cs[i]? = some t →
      (expectedBinds final j cs)[i]?
        = some (toUint32 (j + i), (final.textures.lookup t.Path).getD 0) := by
  induction cs with
  | nil => intro j i t h; simp at h
  | cons c rest ih =>
    intro j i t h
    cases i with
    | zero =>
      simp only [List.getElem?_cons_zero, Option.some.injEq] at h
      subst h
      simp [expectedBinds]
    | succ i =>
      simp only [List.getElem?_cons_succ] at h
      simp only [expectedBinds, List.getElem?_cons_succ]
      rw [ih (j + 1) i t h, show j + 1 + i = j + (i + 1) by omega]

theorem passReady_congr {s s1 : State} {c : BufferConf} (h : s1.textures = s.textures)
    (hr : passReady s c) : passReady s1 c := by
  unfold passReady cached at hr ⊢
  rw [h]; exact hr

theorem runFrames_textures (this : ShaderToy) (frames : List (Env × (Nat → Input))) :
    ∀ (s : State), pipelineReady s this.conf.Pipeline →
      (runFrames this frames s).textures = s.textures := by
  induction frames with
  | nil => intro s _; rfl
  | cons f rest ih =>
    intro s h
    obtain ⟨env, inp⟩ := f
    obtain ⟨l, hl, -⟩ := renderGL_ready env this inp s h
    simp only [runFrames, hl]
    rw [ih _ (pipelineReady_emits l h)]
    rfl

theorem passAt_mem {p : PipelineConf} {k : Nat} {x : BufferConf} (hx : passAt p k = some x) :
    x ∈ passesInOrder p := by
  match k, hx with
  | 0, hx => simp [passAt] at hx
  | 1, hx => simp only [passAt] at hx; simp [passesInOrder, hx]
  | 2, hx => simp only [passAt] at hx; simp [passesInOrder, hx]
  | 3, hx => simp only [passAt] at hx; simp [passesInOrder, hx]
  | 4, hx => simp only [passAt] at hx; simp [passesInOrder, hx]
  | 5, hx => simp only [passAt] at hx; simp [passesInOrder, hx]
  | k + 6, hx => simp [passAt] at hx

/-- C12 (amended): after a successful `PipelineConf.init` on a decoded
configuration with an Image pass, let `x` be a configured buffer pass (step
`k` of `init`, 2 to 5 for Buffer A to D) and `H` the handle cached under its
reserved name. Then the attachments that `init` made to the framebuffer of
`x` are exactly one, of the texture `H`, and no later `render` call of a
configured pass makes an attachment; in every later `render` call of `x` the
only texture resized is `H` (and `x` has a framebuffer, so it is resized,
when the library hands out non-zero framebuffer names); and in every later
`render` call of any configured pass, a channel whose path is that reserved
name is bound, at the unit of its index, to `H`. The cache is the same after
every such call and after every frame, so this holds in every frame,
whichever pass acquired the name first. -/
theorem buffer_texture_shared (env : Env) (conf0 : PipelineConf) (s0 : State)
    (this : ShaderToy) (s : State)
    (hinit : PipelineConf.init env conf0 s0 = (none, this.conf.Pipeline, s))
    (himg : conf0.Image ≠ none) (hdec : imageDecoded conf0)
    (k : Nat) (hk : 2 ≤ k) (x : BufferConf) (hx : passAt this.conf.Pipeline k = some x) :
    ∃ H, s.textures.lookup (reservedName k) = some H
      ∧ ((newCalls s0 s).filterMap attachOf).filter (fun q => decide (q.1 = x.fbo))
          = [(x.fbo, H)]
      ∧ GLCall.NamedFramebufferTexture x.fbo H ∈ newCalls s0 s
      ∧ (s0.nextFbo ≠ 0 → x.fbo ≠ 0)
      ∧ (∀ frames, (runFrames this frames s).textures = s.textures)
      ∧ ∀ (s1 : State), s1.textures = s.textures → ∀ (env1 : Env) (inp : Input),
          (newCalls s1 (ShaderToy.render env1 this inp (some x) s1)).filterMap resizeOf
              = (if x.fbo ≠ 0 then [H] else [])
          ∧ ∀ p ∈ passesInOrder this.conf.Pipeline,
              (ShaderToy.render env1 this inp (some p) s1).textures = s.textures
              ∧ (newCalls s1 (ShaderToy.render env1 this inp (some p) s1)).filterMap attachOf
                  = []
              ∧ ∀ (i : Nat) (t : TextureConf), p.Textures[i]? = some t →
                  t.Path = reservedName k →
                  ((newCalls s1 (ShaderToy.render env1 this inp (some p) s1)).filterMap
                      bindOf)[i]? = some (toUint32 i, H) := by
  obtain ⟨hready, -, -⟩ := PipelineConf_init_ready hinit himg hdec
  obtain ⟨hname, hfbo, H, hH, hatt⟩ := init_buffer_texture hinit himg hk hx
  refine ⟨H, hH, init_attach_exact hinit himg hk hx hH, hatt, fun h0 => by omega,
    fun frames => runFrames_textures this frames s hready, ?_⟩
  intro s1 hs1 env1 inp
  have hxr : passReady s1 x := passReady_congr hs1 (hready x (passAt_mem hx))
  refine ⟨?_, ?_⟩
  · obtain ⟨l, hl, -, hrz, -⟩ := render_ready_binds env1 this inp x s1 hxr
    rw [hl, newCalls_emits, hrz, hs1, hname, hH]
    rfl
  · intro p hp
    have hpr : passReady s1 p := passReady_congr hs1 (hready p hp)
    obtain ⟨l, hl, hb, -, hat⟩ := render_ready_binds env1 this inp p s1 hpr
    refine ⟨by rw [hl]; exact hs1, by rw [hl, newCalls_emits]; exact hat, ?_⟩
    intro i t hi ht
    rw [hl, newCalls_emits, hb, expectedBinds_get s1 p.Textures 0 i t hi, hs1, ht, hH]
    simp

theorem buffer_texture_shared_witness :
    PipelineConf.init demoEnv demoPipeline startState = (none, demoToy.conf.Pipeline, demoState)
    ∧ passAt demoToy.conf.Pipeline 2 = some demoBufferA
    ∧ passAt demoToy.conf.Pipeline 1 = some demoImage
    ∧ ∃ H, demoState.textures.lookup "buffer_a" = some H
      ∧ ((newCalls startState demoState).filterMap attachOf).filter
          (fun q => decide (q.1 = demoBufferA.fbo)) = [(1, H)]
      ∧ (newCalls demoState
            (ShaderToy.render demoEnv demoToy demoInput (some demoBufferA) demoState)).filterMap
            resizeOf = [H]
      ∧ ((newCalls demoState
            (ShaderToy.render demoEnv demoToy demoInput (some demoImage) demoState)).filterMap
            bindOf)[0]? = some (0, H) :=
  ⟨rfl, rfl, rfl,
    (buffer_texture_shared demoEnv demoPipeline startState demoToy demoState rfl
      (by decide) (by intro c hc; cases hc; rfl) 2 (le_refl _) demoBufferA rfl).imp
      (fun _ h => ⟨h.1, h.2.1,
        (h.2.2.2.2.2 demoState rfl demoEnv demoInput).1,
        ((h.2.2.2.2.2 demoState rfl demoEnv demoInput).2 demoImage
          (passAt_mem (rfl : passAt demoToy.conf.Pipeline 1 = some demoImage))).2.2
          0 ⟨"buffer_a", 0, 0⟩ rfl rfl⟩)⟩

/-- C12 as stated fails: `PipelineConf.init` succeeds on `selfSamplingPipeline`,
where Buffer A is configured and samples `buffer_a` but there is no Image
pass; `init` makes no library call at all, so no texture is attached to a
framebuffer of Buffer A, and its `render` call resizes no texture, yet binds
texture 1 for the channel. -/
theorem buffer_without_image_not_attached :
    PipelineConf.init demoEnv selfSamplingPipeline startState
        = (none, selfSamplingPipeline, startState)
    ∧ newCalls startState (PipelineConf.init demoEnv selfSamplingPipeline startState).2.2 = []
    ∧ (newCalls startState
          (ShaderToy.render demoEnv selfSamplingToy demoInput selfSamplingPipeline.Buffer_A
            startState)).filterMap resizeOf = []
    ∧ (newCalls startState
          (ShaderToy.render demoEnv selfSamplingToy demoInput selfSamplingPipeline.Buffer_A
            startState)).filterMap bindOf = [(0, 1)] := by
  decide

end Shadertoy
